import Mathlib

/-
Verification of the DataEmbedder class (src/dataembedder/dataembedder.py)
against its natural-language specification.

Shallow embedding conventions:
- Zinc fields and groups are identified by their name, which is unique within
  a fieldmodule; a handle that may be None is an Option String.
- Coordinates are modelled as integer vectors (List Int); the numerical
  tolerance of an exact mesh-location search is folded into exact equality.
- Python dicts (insertion ordered, unique keys) are association lists
  List (String x alpha) manipulated through dictGet / dictSet below, which
  reproduce dict lookup and dict item assignment (replace in place, else
  append at the end).
- Diagnostic prints to stderr are modelled as a Bool component of the result.
-/

namespace DataEmbedder

/-- A point value of a coordinates field with up to 3 components. -/
abbrev Pt := List Int

/-- One value of the groupData dictionary:
"groupName" maps to a dict with keys "embed", "dimension", "size". -/
structure GroupRec where
  embed : Bool
  dimension : Nat
  size : Nat
deriving DecidableEq, Repr

/-! ## Python dict model -/

/-- Dict lookup: d.get(key). -/
def dictGet : List (String × α) → String → Option α
  | [], _ => none
  | (k, v) :: rest, key => if k = key then some v else dictGet rest key

/-- Dict item assignment d[key] = v: replace the value at an existing key in
place, otherwise append the new entry at the end (Python insertion order). -/
def dictSet : List (String × α) → String → α → List (String × α)
  | [], key, v => [(key, v)]
  | (k, w) :: rest, key, v =>
    if k = key then (key, v) :: rest else (k, w) :: dictSet rest key v

/-- Python dict.update(other): set each entry of other into the base dict,
in order. -/
def dictUpdate (base : List (String × α)) : List (String × α) → List (String × α)
  | [] => base
  | (k, v) :: rest => dictUpdate (dictSet base k v) rest

/-- The keys of a dict, in order. -/
def dictKeys (d : List (String × α)) : List String := d.map Prod.fst

/-! ## Data region model

A Zinc group in the data region: per mesh dimension 1..3 it may hold a field
element group (getFieldElementGroup; isValid when some) whose mesh group has
the listed elements, and it may hold a node group on the datapoints nodeset
(getFieldNodeGroup(datapoints)) with the listed datapoints. -/

structure ZGroup where
  name : String
  elems1 : Option (List Nat)
  elems2 : Option (List Nat)
  elems3 : Option (List Nat)
  points : Option (List Nat)
deriving DecidableEq, Repr

/-- group.getFieldElementGroup(dataMesh[dimension]) with its mesh group. -/
def ZGroup.elems (g : ZGroup) : Nat → Option (List Nat)
  | 1 => g.elems1
  | 2 => g.elems2
  | 3 => g.elems3
  | _ => none

/-- One datapoint of the data marker group nodeset group, with the value the
marker name field evaluates to at it (none when not defined there). -/
structure MarkerPoint where
  id : Nat
  markerNameValue : Option String
deriving DecidableEq, Repr

/-- The data region as seen by _buildDataGroups: the sizes of its meshes of
dimension 1..3 (dataMesh), its groups (get_group_list order), and the
datapoints of the data marker group nodeset in node iterator order. -/
structure DataRegion where
  meshSize1 : Nat
  meshSize2 : Nat
  meshSize3 : Nat
  groups : List ZGroup
  markerPoints : List MarkerPoint
deriving Repr

/-- maxDimension as computed at the top of _buildDataGroups: the loop
for dimension in range(1, 4) leaves the highest dimension whose data mesh
has size > 0 (0 if all are empty). -/
def DataRegion.maxDimension (r : DataRegion) : Nat :=
  if r.meshSize3 > 0 then 3 else if r.meshSize2 > 0 then 2
  else if r.meshSize1 > 0 then 1 else 0

/-! ## Group classification (_buildDataGroups) -/

/-- The element scanning loop of _buildDataGroups:
for dimension in range(maxDimension, 0, -1), with current groupSize gs,
returns the final (groupSize, groupDimension); breaks at the first dimension
whose element group is valid with a non-empty mesh group. -/
def scanElements (g : ZGroup) (gs : Nat) : Nat → Nat × Nat
  | 0 => (gs, 0)
  | d + 1 =>
    match g.elems (d + 1) with
    | some es => if es.length > 0 then (es.length, d + 1) else scanElements g es.length d
    | none => scanElements g gs d

/-- Classification of one literal data group in _buildDataGroups.
dataMarkerGroup is the designated data marker group (by its unique name), so
group == self._dataMarkerGroup is name equality with it. -/
def classifyZGroup (hostGroupNames : List String) (dataMarkerGroup : Option String)
    (maxDim : Nat) (g : ZGroup) : GroupRec :=
  let groupIsInHost := hostGroupNames.contains g.name
  let sd := scanElements g 0 maxDim
  let groupSize :=
    if sd.1 = 0 then
      match g.points with
      | some ps => ps.length
      | none => sd.1
    else sd.1
  { embed := !(groupIsInHost || decide (groupSize = 0) || dataMarkerGroup == some g.name)
    dimension := sd.2
    size := groupSize }

/-- The first loop of _buildDataGroups over get_group_list, accumulating
groupData[groupName] = record. -/
def literalLoop (hostGroupNames : List String) (dataMarkerGroup : Option String)
    (maxDim : Nat) : List (String × GroupRec) → List ZGroup → List (String × GroupRec)
  | acc, [] => acc
  | acc, g :: rest =>
    literalLoop hostGroupNames dataMarkerGroup maxDim
      (dictSet acc g.name (classifyZGroup hostGroupNames dataMarkerGroup maxDim g)) rest

/-- Body of the data marker point loop for one node.  markerName is the value
of self._dataMarkerNameField at the node; an empty or undefined name is
skipped.  On a repeated name the existing dict has its size incremented in
place; on a first occurrence a new dict {embed, dimension 0, size 0} is
stored and its size is then incremented, which we collapse into a single
store with size 0 + 1 (both stores hit the same freshly appended entry). -/
def markerStep (hostGroupNames : List String) (dataMarkerGroupName : Option String)
    (acc : List (String × GroupRec)) (pt : MarkerPoint) : List (String × GroupRec) :=
  match pt.markerNameValue with
  | none => acc
  | some mn =>
    if mn = "" then acc
    else
      match dictGet acc mn with
      | some d => dictSet acc mn { d with size := d.size + 1 }
      | none =>
        dictSet acc mn
          { embed := !(hostGroupNames.contains mn || dataMarkerGroupName == some mn)
            dimension := 0
            size := 0 + 1 }

/-- The data marker point loop of _buildDataGroups (node iterator over the
marker nodeset group). -/
def markerLoop (hostGroupNames : List String) (dataMarkerGroupName : Option String) :
    List (String × GroupRec) → List MarkerPoint → List (String × GroupRec)
  | acc, [] => acc
  | acc, pt :: rest =>
    markerLoop hostGroupNames dataMarkerGroupName
      (markerStep hostGroupNames dataMarkerGroupName acc pt) rest

/-- markerGroupData built from the data marker points. -/
def markerGroupData (hostGroupNames : List String) (dataMarkerGroupName : Option String)
    (pts : List MarkerPoint) : List (String × GroupRec) :=
  markerLoop hostGroupNames dataMarkerGroupName [] pts

/-- groupData as built by _buildDataGroups before the embed transfer:
the literal group pass, then, when a data marker group and marker name field
are both present, markerGroupData.update(groupData) giving literal dataset
groups precedence over same-named marker pseudo-groups. -/
def classifiedGroupData (hostGroupNames : List String)
    (dataMarkerGroup dataMarkerGroupName : Option String) (hasMarkerNameField : Bool)
    (r : DataRegion) : List (String × GroupRec) :=
  let groupData := literalLoop hostGroupNames dataMarkerGroup r.maxDimension [] r.groups
  if dataMarkerGroup.isSome && hasMarkerNameField then
    dictUpdate (markerGroupData hostGroupNames dataMarkerGroupName r.markerPoints) groupData
  else groupData

/-! ## Embedder instance state

The instance fields of DataEmbedder relevant to the claims.  Zinc field and
group handles are identified by their unique name within their region, so a
handle that may be None is an Option String. -/

structure EmbedderState where
  fittedCoordinatesFieldName : Option String
  materialCoordinatesFieldName : Option String
  hostMarkerGroupName : Option String
  dataCoordinatesFieldName : Option String
  dataMarkerGroupName : Option String
  fittedCoordinatesField : Option String
  materialCoordinatesField : Option String
  dataCoordinatesField : Option String
  dataMarkerGroup : Option String
  dataMarkerCoordinatesField : Option String
  dataMarkerNameField : Option String
  diagnosticLevel : Int
  groupData : List (String × GroupRec)
  needGenerateOutput : Bool
  outputGeneration : Nat
deriving DecidableEq, Repr

/-- The state set up by the constructor. -/
def initialState : EmbedderState :=
  { fittedCoordinatesFieldName := none
    materialCoordinatesFieldName := none
    hostMarkerGroupName := none
    dataCoordinatesFieldName := none
    dataMarkerGroupName := none
    fittedCoordinatesField := none
    materialCoordinatesField := none
    dataCoordinatesField := none
    dataMarkerGroup := none
    dataMarkerCoordinatesField := none
    dataMarkerNameField := none
    diagnosticLevel := 0
    groupData := []
    needGenerateOutput := true
    outputGeneration := 0 }

/-! ## Group queries and setters -/

/-- getDataGroupNames: self._groupData.keys(). -/
def getDataGroupNames (st : EmbedderState) : List String := dictKeys st.groupData

/-- hasDataGroup: groupName in self._groupData. -/
def hasDataGroup (st : EmbedderState) (groupName : String) : Bool :=
  (dictGet st.groupData groupName).isSome

/-- getDataGroupDimension.  The Bool is whether the missing-group diagnostic
was printed to stderr. -/
def getDataGroupDimension (st : EmbedderState) (groupName : String) : Int × Bool :=
  match dictGet st.groupData groupName with
  | some d => ((d.dimension : Int), false)
  | none => (0, true)

/-- isDataGroupEmbed.  The Bool is whether the missing-group diagnostic was
printed to stderr. -/
def isDataGroupEmbed (st : EmbedderState) (groupName : String) : Bool × Bool :=
  match dictGet st.groupData groupName with
  | some d => (d.embed, false)
  | none => (false, true)

/-- getDataGroupSize.  The Bool is whether the missing-group diagnostic was
printed to stderr. -/
def getDataGroupSize (st : EmbedderState) (groupName : String) : Int × Bool :=
  match dictGet st.groupData groupName with
  | some d => ((d.size : Int), false)
  | none => (-1, true)

/-- setDataGroupEmbed; returns the new state and whether the embed state
changed. -/
def setDataGroupEmbed (st : EmbedderState) (groupName : String) (embed : Bool) :
    EmbedderState × Bool :=
  match dictGet st.groupData groupName with
  | some d =>
    if d.embed != embed then
      ({ st with
          groupData := dictSet st.groupData groupName { d with embed := embed }
          needGenerateOutput := true }, true)
    else (st, false)
  | none => (st, false)

/-! ## _buildDataGroups embed transfer and result -/

/-- The final loop of _buildDataGroups: transfer the embed flag from the
existing self._groupData for every group name present there. -/
def transferEmbed (st : EmbedderState) (groupData : List (String × GroupRec)) :
    List (String × GroupRec) :=
  groupData.map fun kv =>
    (kv.1,
      if (dictGet st.groupData kv.1).isSome then
        { kv.2 with embed := (isDataGroupEmbed st kv.1).1 }
      else kv.2)

/-- _buildDataGroups: classification of the data region followed by the embed
transfer; the result replaces self._groupData. -/
def buildDataGroups (hostGroupNames : List String) (st : EmbedderState)
    (r : DataRegion) : List (String × GroupRec) :=
  transferEmbed st
    (classifiedGroupData hostGroupNames st.dataMarkerGroup st.dataMarkerGroupName
      st.dataMarkerNameField.isSome r)

/-! ## Settings serialisation -/

/-- A parsed JSON settings object.  For the five name settings, absent keys
and null values are both read through dict.get as None, so both are none
here; for diagnosticLevel and groupData, none means the key is absent. -/
structure SettingsJSON where
  fittedCoordinatesField : Option String
  materialCoordinatesField : Option String
  hostMarkerGroup : Option String
  dataCoordinatesField : Option String
  dataMarkerGroup : Option String
  diagnosticLevel : Option Int
  groupData : Option (List (String × GroupRec))
deriving DecidableEq, Repr

/-- decodeSettingsJSON: the five field names are read with dct.get (defaulting
to None), then dct subscript reads of diagnosticLevel and groupData raise
KeyError when the key is absent. -/
def decodeSettingsJSON (st : EmbedderState) (dct : SettingsJSON) :
    Except String EmbedderState :=
  let st1 := { st with
    fittedCoordinatesFieldName := dct.fittedCoordinatesField
    materialCoordinatesFieldName := dct.materialCoordinatesField
    hostMarkerGroupName := dct.hostMarkerGroup
    dataCoordinatesFieldName := dct.dataCoordinatesField
    dataMarkerGroupName := dct.dataMarkerGroup }
  match dct.diagnosticLevel with
  | none => Except.error "KeyError: diagnosticLevel"
  | some lvl =>
    match dct.groupData with
    | none => Except.error "KeyError: groupData"
    | some gd => Except.ok { st1 with diagnosticLevel := lvl, groupData := gd }

/-- encodeSettingsJSON: every settings key is written. -/
def encodeSettingsJSON (st : EmbedderState) : SettingsJSON :=
  { fittedCoordinatesField := st.fittedCoordinatesFieldName
    materialCoordinatesField := st.materialCoordinatesFieldName
    hostMarkerGroup := st.hostMarkerGroupName
    dataCoordinatesField := st.dataCoordinatesFieldName
    dataMarkerGroup := st.dataMarkerGroupName
    diagnosticLevel := some st.diagnosticLevel
    groupData := some st.groupData }

/-! ## Lemmas about the marker point pass -/

/-- The number of marker points carrying a given name value. -/
def markerCount (pts : List MarkerPoint) (n : String) : Nat :=
  (pts.filter fun pt => pt.markerNameValue == some n).length

/-- Invariant of the data marker point loop after processing a list of
points: the accumulated markerGroupData has one record per distinct
non-empty marker name value, with dimension 0, size the number of points
sharing the name, and the marker pseudo-group default embed. -/
def MarkerInv (host : List String) (mgn : Option String) (processed : List MarkerPoint)
    (acc : List (String × GroupRec)) : Prop :=
  (dictKeys acc).Nodup ∧
  ∀ n : String,
    ((dictGet acc n).isSome ↔ (n ≠ "" ∧ ∃ pt ∈ processed, pt.markerNameValue = some n)) ∧
    (∀ rec, dictGet acc n = some rec →
      rec.dimension = 0 ∧ rec.size = markerCount processed n ∧
      rec.embed = !(host.contains n || mgn == some n))

/-- A data group holding no element groups and no datapoint group: it has
zero elements at every dimension and zero points. -/
def emptyZGroup : ZGroup :=
  { name := "empty", elems1 := none, elems2 := none, elems3 := none, points := none }

/-- A data region whose only group is the empty group above. -/
def emptyGroupRegion : DataRegion :=
  { meshSize1 := 0, meshSize2 := 0, meshSize3 := 0
    groups := [emptyZGroup], markerPoints := [] }

/-- The embedder state after classifying emptyGroupRegion from a fresh
instance (no host groups, no marker group). -/
def c9State : EmbedderState :=
  { initialState with groupData := buildDataGroups [] initialState emptyGroupRegion }

/-! ## Output generation state machine

Zinc fields passed to the setters are valid finite element fields of their
region and are identified by their unique name; the setter asserts modelled
here always pass for such a field. -/

/-- generateOutput: when the dirty flag is clear, return the cached output
data region; otherwise remove the old output child region, create and fill a
new one (modelled by bumping the generation counter that identifies the
region), and clear the dirty flag.  The Nat identifies the returned region. -/
def generateOutput (st : EmbedderState) : EmbedderState × Nat :=
  if !st.needGenerateOutput then (st, st.outputGeneration)
  else
    ({ st with
        outputGeneration := st.outputGeneration + 1
        needGenerateOutput := false },
      st.outputGeneration + 1)

/-- setFittedCoordinatesField with a valid fitted coordinates field. -/
def setFittedCoordinatesField (st : EmbedderState) (f : String) :
    EmbedderState × Bool :=
  if some f = st.fittedCoordinatesField then (st, false)
  else
    ({ st with
        fittedCoordinatesField := some f
        fittedCoordinatesFieldName := some f
        needGenerateOutput := true }, true)

/-- setMaterialCoordinatesField with a valid material coordinates field. -/
def setMaterialCoordinatesField (st : EmbedderState) (f : String) :
    EmbedderState × Bool :=
  if some f = st.materialCoordinatesField then (st, false)
  else
    ({ st with
        materialCoordinatesField := some f
        materialCoordinatesFieldName := some f
        needGenerateOutput := true }, true)

/-- setDataCoordinatesField with a valid data coordinates field. -/
def setDataCoordinatesField (st : EmbedderState) (f : String) :
    EmbedderState × Bool :=
  if some f = st.dataCoordinatesField then (st, false)
  else
    ({ st with
        dataCoordinatesField := some f
        dataCoordinatesFieldName := some f
        needGenerateOutput := true }, true)

/-- setDataMarkerGroup.  The per-point discovery of the marker coordinates
and marker name fields iterates Zinc fields of the data region; its two
results are taken as parameters here.  Note the None branch returns True
(the group changed) without touching the dirty flag: only the non-None
branch sets _needGenerateOutput. -/
def setDataMarkerGroup (st : EmbedderState) (g : Option String)
    (discoveredCoordinatesField discoveredNameField : Option String) :
    EmbedderState × Bool :=
  if g = st.dataMarkerGroup then (st, false)
  else
    let st1 := { st with
      dataMarkerGroup := none
      dataMarkerGroupName := none
      dataMarkerCoordinatesField := none
      dataMarkerNameField := none }
    match g with
    | none => (st1, true)
    | some grp =>
      ({ st1 with
          dataMarkerGroup := some grp
          dataMarkerGroupName := some grp
          needGenerateOutput := true
          dataMarkerCoordinatesField := discoveredCoordinatesField
          dataMarkerNameField := discoveredNameField }, true)

/-- A state with a data marker group set and a clean (already generated)
output, as reached after load() and a first generateOutput(). -/
def c8State : EmbedderState :=
  { initialState with
      dataMarkerGroup := some "marker"
      dataMarkerGroupName := some "marker"
      needGenerateOutput := false
      outputGeneration := 1 }

/-! ## Concrete instances used to exercise the theorems -/

/-- A 1-dimensional data group with two line elements. -/
def payloadGroup : ZGroup :=
  { name := "payload", elems1 := some [1, 2], elems2 := none, elems3 := none
    points := none }

/-- A data group sharing its name with a host group. -/
def sharedGroup : ZGroup :=
  { name := "bottom", elems1 := some [3], elems2 := none, elems3 := none
    points := none }

/-- A small data region with two literal 1-D groups and no marker points. -/
def c1Region : DataRegion :=
  { meshSize1 := 3, meshSize2 := 0, meshSize3 := 0
    groups := [payloadGroup, sharedGroup], markerPoints := [] }

/-- A prior state carrying a stored embed override for "payload". -/
def c4PriorState : EmbedderState :=
  { initialState with
      groupData := [("payload", { embed := false, dimension := 0, size := 5 })] }

/-- The state produced by decoding the serialised settings of c4PriorState
into a fresh instance. -/
def c4DecodedState : EmbedderState :=
  { initialState with groupData := c4PriorState.groupData }

/-- Marker datapoints carrying name values: two named apex, one base, one
with no name field value. -/
def c5MarkerPoints : List MarkerPoint :=
  [ { id := 1, markerNameValue := some "apex" },
    { id := 2, markerNameValue := some "apex" },
    { id := 3, markerNameValue := some "base" },
    { id := 4, markerNameValue := none } ]

/-- The data marker group containing the marker datapoints. -/
def c5MarkerGroup : ZGroup :=
  { name := "marker", elems1 := none, elems2 := none, elems3 := none
    points := some [1, 2, 3, 4] }

/-- A data region with only the marker group and its points. -/
def c5Region : DataRegion :=
  { meshSize1 := 0, meshSize2 := 0, meshSize3 := 0
    groups := [c5MarkerGroup], markerPoints := c5MarkerPoints }

/-- A state in which the data marker group and its name field are set. -/
def c5State : EmbedderState :=
  { initialState with
      dataMarkerGroup := some "marker"
      dataMarkerGroupName := some "marker"
      dataMarkerNameField := some "marker name" }

/-- A settings JSON object with both required keys present and some of the
optional name settings absent. -/
def c10Dict : SettingsJSON :=
  { fittedCoordinatesField := none
    materialCoordinatesField := some "body coordinates"
    hostMarkerGroup := none
    dataCoordinatesField := some "coordinates"
    dataMarkerGroup := some "marker"
    diagnosticLevel := some 1
    groupData := some [("cube", { embed := true, dimension := 3, size := 1 })] }

/-- The state decodeSettingsJSON produces from c10Dict on a fresh instance. -/
def c10Decoded : EmbedderState :=
  { initialState with
      materialCoordinatesFieldName := some "body coordinates"
      dataCoordinatesFieldName := some "coordinates"
      dataMarkerGroupName := some "marker"
      diagnosticLevel := 1
      groupData := [("cube", { embed := true, dimension := 3, size := 1 })] }

/-! ## Output material coordinates field naming (generateOutput, lines
815-831)

get_unique_field_name is an external cmlibs/opencmiss utility; it is taken
as a parameter uniq with its contract: the returned name is not an existing
field name and extends the requested base name. -/

/-- outputDataCoordinatesFieldNames: the data coordinates field name, plus
the data marker coordinates field name when that is a set and different
field. -/
def outputCoordinatesFieldNames (dataCoordinatesFieldName : String)
    (dataMarkerCoordinatesFieldName : Option String) : List String :=
  dataCoordinatesFieldName ::
    (match dataMarkerCoordinatesFieldName with
      | some m => if m = dataCoordinatesFieldName then [] else [m]
      | none => [])

/-- The choice of the name under which material coordinates are written to
the output: scan the output data coordinates field names and, at the first
one equal to the host material coordinates field name, switch to a fresh
name built from "material " + name (printing a warning) and stop scanning;
otherwise keep the host name.  The Bool is whether the warning was
printed. -/
def chooseOutputMaterialFieldName (uniq : List String → String → String)
    (outputFieldNames : List String) (names : List String)
    (materialCoordinatesFieldName : String) : String × Bool :=
  if names.contains materialCoordinatesFieldName then
    (uniq outputFieldNames ("material " ++ materialCoordinatesFieldName), true)
  else (materialCoordinatesFieldName, false)

/-- A concrete fresh-name generator satisfying the get_unique_field_name
contract, used by the witnesses: append the concatenation of every existing
name plus one more character, making the result longer than any existing
name. -/
def freshNameGen (ex : List String) (n : String) : String :=
  n ++ (ex.foldl (fun a b => a ++ b) "" ++ "x")

/-! ## The embedding map (_buildEmbeddedMapFields)

Zinc FieldFindMeshLocation is external; its semantics per the Zinc
documentation: in SEARCH_MODE_EXACT it yields a location of the search mesh
where the source field equals the queried value (undefined when there is
none), in SEARCH_MODE_NEAREST a location of the search mesh minimising the
distance to the queried value.  A search mesh is modelled as the finite list
of candidate locations the search ranges over; fitted and material give the
values of the fitted and material coordinates fields at a location.  The
composite field built by _buildEmbeddedMapFields is
  FieldIf(FieldIsDefined(findExactInterior),
          FieldEmbedded(material, findExactInterior),
          FieldEmbedded(material, findNearestBoundary))
for a 3-D host mesh, and FieldEmbedded(material, findNearestInterior)
otherwise, where the interior search mesh is the fitted mesh group and the
boundary search mesh the fitted boundary mesh group. -/

structure EmbedMapModel where
  hostMeshDimension : Nat
  interiorLocs : List Nat
  boundaryLocs : List Nat
  fitted : Nat → Pt
  material : Nat → Pt

/-- Squared Euclidean distance between two coordinate values. -/
def sqDist (p q : Pt) : Int :=
  (List.zipWith (fun a b => (a - b) * (a - b)) p q).foldl (· + ·) 0

/-- SEARCH_MODE_EXACT over the given search mesh locations. -/
def findExact (locs : List Nat) (fitted : Nat → Pt) (q : Pt) : Option Nat :=
  locs.find? fun l => fitted l == q

/-- SEARCH_MODE_NEAREST over the given search mesh locations (none only for
an empty search mesh). -/
def findNearest (locs : List Nat) (fitted : Nat → Pt) (q : Pt) : Option Nat :=
  locs.foldl
    (fun best l =>
      match best with
      | none => some l
      | some b => if sqDist (fitted l) q < sqDist (fitted b) q then some l else best)
    none

/-- The embedding map built by _buildEmbeddedMapFields, as the function the
composite Zinc field evaluates: for a 3-D host, the material field at an
exact interior location when one exists, else at the nearest boundary
location; for a lower-dimensional host, the material field at the nearest
interior location. -/
def hostFindMaterialCoordinates (m : EmbedMapModel) (q : Pt) : Option Pt :=
  if m.hostMeshDimension = 3 then
    match findExact m.interiorLocs m.fitted q with
    | some l => some (m.material l)
    | none => (findNearest m.boundaryLocs m.fitted q).map m.material
  else (findNearest m.interiorLocs m.fitted q).map m.material

/-! ## Output assembly (generateOutput, lines 745-868)

generateOutput re-reads the data file into a fresh output child region and
then filters it.  The freshly read output region is modelled below:
elements of the meshes of dimension 1..3, nodes, datapoints, groups (with
their member elements per dimension, nodes and datapoints), the marker name
field value at each datapoint, and the data coordinates value at each node
or datapoint (the data file defines data coordinates on its nodes and
datapoints).  The embedding map evaluation (FieldApply of
hostFindMaterialCoordinates bound to the output coordinates) is a
parameter embedMap. -/

structure OutGroup where
  name : String
  elems1 : List Nat
  elems2 : List Nat
  elems3 : List Nat
  nodes : List Nat
  datapoints : List Nat
deriving DecidableEq, Repr

/-- The members of the group mesh group of one dimension (elements for which
addElementsConditional(group) is true). -/
def OutGroup.elems (g : OutGroup) : Nat → List Nat
  | 1 => g.elems1
  | 2 => g.elems2
  | 3 => g.elems3
  | _ => []

/-- The freshly read output data region.  otherFieldNames are the names of
the non-group fields its fieldmodule holds (coordinates fields, the marker
name field, ...): a Zinc field name is in use exactly when a group of that
name exists or the name is in otherFieldNames, and setting a field name
fails when the name is already in use by another field. -/
structure OutputRegionData where
  mesh1 : List Nat
  mesh2 : List Nat
  mesh3 : List Nat
  nodes : List Nat
  datapoints : List Nat
  groups : List OutGroup
  markerNameValueAt : Nat → Option String
  dataCoordsAt : Nat → Pt
  otherFieldNames : List String

def OutputRegionData.mesh (out : OutputRegionData) : Nat → List Nat
  | 1 => out.mesh1
  | 2 => out.mesh2
  | 3 => out.mesh3
  | _ => []

/-- findFieldByName(name).castGroup(): the group of that name, when one
exists. -/
def findGroup (out : OutputRegionData) (n : String) : Option OutGroup :=
  out.groups.find? fun g => g.name == n

/-- outputDataMarkerGroup: looked up by the data marker group name when the
data marker group is set. -/
def outputDataMarkerGroup (out : OutputRegionData)
    (dataMarkerGroupName : Option String) : Option OutGroup :=
  match dataMarkerGroupName with
  | some m => findGroup out m
  | none => none

/-- The elements one groupData entry adds to the embed mesh group of
dimension d: for an embed-flagged entry whose literal group is found, the
loop for dimension in range(groupDimension, 0, -1) adds the group members
at d when 1 <= d <= the recorded dimension. -/
def entryEmbedElems (out : OutputRegionData) (d : Nat)
    (entry : String × GroupRec) : List Nat :=
  if entry.2.embed then
    match findGroup out entry.1 with
    | some g => if 1 ≤ d ∧ d ≤ entry.2.dimension then g.elems d else []
    | none => []
  else []

/-- The nodes one embed-flagged entry adds to the embed node group
(addNodesConditional(group) over the nodes nodeset). -/
def entryEmbedNodes (out : OutputRegionData) (entry : String × GroupRec) : List Nat :=
  if entry.2.embed then
    match findGroup out entry.1 with
    | some g => g.nodes
    | none => []
  else []

/-- The datapoints one embed-flagged entry adds to the embed data group:
the literal group datapoints, or, for a marker pseudo-group with no literal
group, the marker group datapoints whose marker name value equals the entry
name — available only when the output data marker group and the marker name
field both exist (otherwise the entry is skipped with a diagnostic), and
only when group.setName(groupName) succeeds: when a non-group field of the
output already uses the name, the pseudo-group is skipped with a
diagnostic (lines 781-784) and contributes nothing. -/
def entryEmbedDatapoints (out : OutputRegionData)
    (dataMarkerGroupName : Option String) (hasNameField : Bool)
    (entry : String × GroupRec) : List Nat :=
  if entry.2.embed then
    match findGroup out entry.1 with
    | some g => g.datapoints
    | none =>
      match outputDataMarkerGroup out dataMarkerGroupName with
      | some mg =>
        if hasNameField then
          if entry.1 ∈ out.otherFieldNames then []
          else mg.datapoints.filter fun p => out.markerNameValueAt p == some entry.1
        else []
      | none => []
  else []

/-- The marker pseudo-groups created during the loop (group created, named,
setManaged(True), and filled with the same-named marker datapoints).  No
group is created when group.setName(groupName) fails because a non-group
field of the output already uses the name (skip at lines 781-784). -/
def createdMarkerGroups (out : OutputRegionData) (gd : List (String × GroupRec))
    (dataMarkerGroupName : Option String) (hasNameField : Bool) : List OutGroup :=
  gd.filterMap fun entry =>
    if entry.2.embed = true ∧ (findGroup out entry.1).isNone then
      match outputDataMarkerGroup out dataMarkerGroupName with
      | some mg =>
        if hasNameField then
          if entry.1 ∈ out.otherFieldNames then none
          else
            some
              { name := entry.1
                elems1 := []
                elems2 := []
                elems3 := []
                nodes := []
                datapoints :=
                  mg.datapoints.filter fun p => out.markerNameValueAt p == some entry.1 }
        else none
      | none => none
    else none

/-- The assembled output: filtered meshes / nodesets, surviving groups with
their members shrunk to the retained objects, the chosen material
coordinates field name, and the material coordinates value assigned on
every retained node and datapoint. -/
structure GeneratedOutput where
  mesh1 : List Nat
  mesh2 : List Nat
  mesh3 : List Nat
  nodes : List Nat
  datapoints : List Nat
  groups : List OutGroup
  materialValueAt : Nat → Option Pt
  materialFieldName : String
  warned : Bool

def GeneratedOutput.mesh (o : GeneratedOutput) : Nat → List Nat
  | 1 => o.mesh1
  | 2 => o.mesh2
  | 3 => o.mesh3
  | _ => []

/-- The output assembly steps of generateOutput on the freshly re-read data
region: build the embed group as the union of the per-entry contributions;
destroy every element, node and datapoint not in it (destroy*Conditional
with the Not of the embed group, which also removes destroyed members from
the surviving groups); unmanage (remove) every group whose record has embed
false, except the data marker group; keep groups without a record and the
created marker pseudo-groups; choose the output material coordinates field
name; and assign the embedding map of the data coordinates to the material
coordinates field on every remaining node and datapoint. -/
def assembleOutput (uniq : List String → String → String) (embedMap : Pt → Pt)
    (out : OutputRegionData) (gd : List (String × GroupRec))
    (dataMarkerGroupName : Option String) (hasNameField : Bool)
    (outputFieldNames : List String) (dataCoordinatesFieldName : String)
    (dataMarkerCoordinatesFieldName : Option String)
    (materialCoordinatesFieldName : String) : GeneratedOutput :=
  let embedElems := fun d => gd.flatMap (entryEmbedElems out d)
  let embedNodes := gd.flatMap (entryEmbedNodes out)
  let embedData := gd.flatMap (entryEmbedDatapoints out dataMarkerGroupName hasNameField)
  let mesh1 := out.mesh1.filter fun x => decide (x ∈ embedElems 1)
  let mesh2 := out.mesh2.filter fun x => decide (x ∈ embedElems 2)
  let mesh3 := out.mesh3.filter fun x => decide (x ∈ embedElems 3)
  let nodes := out.nodes.filter fun x => decide (x ∈ embedNodes)
  let datapoints := out.datapoints.filter fun x => decide (x ∈ embedData)
  let keptGroups := out.groups.filter fun g =>
    match dictGet gd g.name with
    | some r => r.embed || decide (dataMarkerGroupName = some g.name)
    | none => true
  let shrunkGroups := keptGroups.map fun g =>
    { g with
        elems1 := g.elems1.filter fun x => decide (x ∈ embedElems 1)
        elems2 := g.elems2.filter fun x => decide (x ∈ embedElems 2)
        elems3 := g.elems3.filter fun x => decide (x ∈ embedElems 3)
        nodes := g.nodes.filter fun x => decide (x ∈ embedNodes)
        datapoints := g.datapoints.filter fun x => decide (x ∈ embedData) }
  let nameChoice := chooseOutputMaterialFieldName uniq outputFieldNames
    (outputCoordinatesFieldNames dataCoordinatesFieldName dataMarkerCoordinatesFieldName)
    materialCoordinatesFieldName
  { mesh1 := mesh1
    mesh2 := mesh2
    mesh3 := mesh3
    nodes := nodes
    datapoints := datapoints
    groups := shrunkGroups ++ createdMarkerGroups out gd dataMarkerGroupName hasNameField
    materialValueAt := fun p =>
      if p ∈ nodes ∨ p ∈ datapoints then some (embedMap (out.dataCoordsAt p)) else none
    materialFieldName := nameChoice.1
    warned := nameChoice.2 }

/-! ## A concrete output assembly scenario -/

/-- A volume group: one 3-D element, one node. -/
def c2CubeGroup : OutGroup :=
  { name := "cube", elems1 := [], elems2 := [], elems3 := [1]
    nodes := [2], datapoints := [] }

/-- A surface group that will not be embedded. -/
def c2JunkGroup : OutGroup :=
  { name := "junk", elems1 := [], elems2 := [5], elems3 := []
    nodes := [], datapoints := [] }

/-- The data marker group with two marker datapoints. -/
def c2MarkerOutGroup : OutGroup :=
  { name := "marker", elems1 := [], elems2 := [], elems3 := []
    nodes := [], datapoints := [10, 11] }

/-- The freshly read output region for the scenario: its only non-group
field is the data coordinates field. -/
def c2Out : OutputRegionData :=
  { mesh1 := [], mesh2 := [5], mesh3 := [1], nodes := [2], datapoints := [10, 11]
    groups := [c2CubeGroup, c2JunkGroup, c2MarkerOutGroup]
    markerNameValueAt := fun p =>
      if p = 10 then some "apex" else if p = 11 then some "base" else none
    dataCoordsAt := fun p => [Int.ofNat p, 0, 0]
    otherFieldNames := ["coordinates"] }

/-- Output region for the C2 counterexample: the re-read output data file
defines a non-group field named "pressure", and the single marker datapoint
carries "pressure" as its marker name value. -/
def c2CexOut : OutputRegionData :=
  { mesh1 := [], mesh2 := [], mesh3 := [], nodes := [], datapoints := [10]
    groups := [{ name := "marker", elems1 := [], elems2 := [], elems3 := []
                 nodes := [], datapoints := [10] }]
    markerNameValueAt := fun p => if p = 10 then some "pressure" else none
    dataCoordsAt := fun p => [Int.ofNat p, 0, 0]
    otherFieldNames := ["coordinates", "pressure"] }

/-- The group data of the counterexample: the "pressure" marker pseudo-group
has its embed flag set. -/
def c2CexGd : List (String × GroupRec) :=
  [("marker", { embed := false, dimension := 0, size := 1 }),
   ("pressure", { embed := true, dimension := 0, size := 1 })]

/-- The assembled counterexample output. -/
def c2CexRes : GeneratedOutput :=
  assembleOutput (fun _ n2 => n2) (fun p => p) c2CexOut c2CexGd (some "marker")
    true ["coordinates", "pressure"] "coordinates" none "body coordinates"

/-- The groupData for the scenario: cube and the apex pseudo-group embed. -/
def c2gd : List (String × GroupRec) :=
  [("cube", { embed := true, dimension := 3, size := 1 }),
   ("junk", { embed := false, dimension := 2, size := 1 }),
   ("marker", { embed := false, dimension := 0, size := 2 }),
   ("apex", { embed := true, dimension := 0, size := 1 }),
   ("base", { embed := false, dimension := 0, size := 1 })]

/-- The assembled output of the scenario (identity embedding map). -/
def c2Res : GeneratedOutput :=
  assembleOutput (fun _ n2 => n2) (fun p => p) c2Out c2gd (some "marker") true
    ["coordinates"] "coordinates" none "body coordinates"

/-- A 3-D host search model: a query matching an interior location exactly,
and a query off the fitted domain resolved on the boundary search mesh. -/
def c3Model : EmbedMapModel :=
  { hostMeshDimension := 3
    interiorLocs := [10, 11]
    boundaryLocs := [20, 21]
    fitted := fun l => if l = 10 then [0, 0, 0] else if l = 11 then [2, 2, 2]
      else if l = 20 then [0, 0, 1] else [5, 5, 5]
    material := fun l => [Int.ofNat l, 0, 0] }

/-- A 2-D host search model for the single nearest search. -/
def c3Model2 : EmbedMapModel :=
  { hostMeshDimension := 2
    interiorLocs := [30, 31]
    boundaryLocs := []
    fitted := fun l => if l = 30 then [0, 0] else [3, 3]
    material := fun l => [Int.ofNat l, 1] }

@[simp] theorem dictKeys_nil : dictKeys ([] : List (String × α)) = [] := rfl

@[simp] theorem dictKeys_cons (k : String) (v : α) (l : List (String × α)) :
    dictKeys ((k, v) :: l) = k :: dictKeys l := rfl

theorem dictGet_dictSet (l : List (String × α)) (k key : String) (v : α) :
    dictGet (dictSet l k v) key = if k = key then some v else dictGet l key := by
  induction l with
  | nil => simp [dictGet, dictSet]
  | cons hd tl ih =>
    obtain ⟨k1, v1⟩ := hd
    by_cases h1 : k1 = k
    · subst h1
      by_cases h2 : k1 = key <;> simp [dictGet, dictSet, h2]
    · by_cases h2 : k1 = key
      · subst h2
        have h3 : ¬ k = k1 := fun h => h1 h.symm
        simp [dictGet, dictSet, h1, h3]
      · simp [dictGet, dictSet, h1, h2, ih]

theorem dictGet_isSome_iff_mem_keys (l : List (String × α)) (key : String) :
    (dictGet l key).isSome ↔ key ∈ dictKeys l := by
  induction l with
  | nil => simp [dictGet]
  | cons hd tl ih =>
    obtain ⟨k1, v1⟩ := hd
    by_cases h1 : k1 = key
    · subst h1; simp [dictGet]
    · have h1' : ¬ key = k1 := fun h => h1 h.symm
      simp [dictGet, h1, h1', ih]

theorem dictKeys_dictSet (l : List (String × α)) (k : String) (v : α) :
    dictKeys (dictSet l k v) = if (dictGet l k).isSome then dictKeys l
      else dictKeys l ++ [k] := by
  induction l with
  | nil => simp [dictGet, dictSet, dictKeys]
  | cons hd tl ih =>
    obtain ⟨k1, v1⟩ := hd
    by_cases h1 : k1 = k
    · subst h1; simp [dictGet, dictSet]
    · simp only [dictSet, if_neg h1, dictGet, dictKeys_cons, ih]
      by_cases h2 : (dictGet tl k).isSome <;> simp [h2]

theorem dictKeys_nodup_dictSet (l : List (String × α)) (k : String) (v : α)
    (h : (dictKeys l).Nodup) : (dictKeys (dictSet l k v)).Nodup := by
  rw [dictKeys_dictSet]
  by_cases h2 : (dictGet l k).isSome
  · simpa [h2]
  · simp only [h2, if_false]
    refine List.Nodup.append h (List.nodup_singleton k) ?_
    intro a ha hb
    simp only [List.mem_singleton] at hb
    subst hb
    exact h2 ((dictGet_isSome_iff_mem_keys l a).mpr ha)

theorem dictGet_dictUpdate (base upd : List (String × α)) (key : String)
    (hnodup : (dictKeys upd).Nodup) :
    dictGet (dictUpdate base upd) key =
      match dictGet upd key with
      | some v => some v
      | none => dictGet base key := by
  induction upd generalizing base with
  | nil => simp [dictUpdate, dictGet]
  | cons hd tl ih =>
    obtain ⟨k1, v1⟩ := hd
    simp only [dictKeys, List.map_cons, List.nodup_cons] at hnodup
    obtain ⟨hk1, htl⟩ := hnodup
    by_cases h1 : k1 = key
    · subst h1
      have htlnone : dictGet tl k1 = none := by
        cases hv : dictGet tl k1 with
        | none => rfl
        | some v =>
          exact absurd ((dictGet_isSome_iff_mem_keys tl k1).mp (by simp [hv]))
            (by simpa [dictKeys] using hk1)
      simp [dictUpdate, dictGet, ih _ htl, htlnone, dictGet_dictSet]
    · simp [dictUpdate, dictGet, h1, ih _ htl, dictGet_dictSet]

/-! ## Lemmas about the classification passes -/

theorem literalLoop_get_of_not_mem (host : List String) (dm : Option String) (md : Nat)
    (acc : List (String × GroupRec)) (gs : List ZGroup) (n : String)
    (h : ∀ g ∈ gs, g.name ≠ n) :
    dictGet (literalLoop host dm md acc gs) n = dictGet acc n := by
  induction gs generalizing acc with
  | nil => rfl
  | cons g rest ih =>
    have hg : g.name ≠ n := h g (List.mem_cons_self g rest)
    rw [literalLoop, ih _ (fun g2 hg2 => h g2 (List.mem_cons_of_mem g hg2)),
      dictGet_dictSet, if_neg hg]

theorem literalLoop_get_mem (host : List String) (dm : Option String) (md : Nat)
    (acc : List (String × GroupRec)) (gs : List ZGroup) (g : ZGroup)
    (hnodup : (gs.map ZGroup.name).Nodup) (hmem : g ∈ gs) :
    dictGet (literalLoop host dm md acc gs) g.name =
      some (classifyZGroup host dm md g) := by
  induction gs generalizing acc with
  | nil => cases hmem
  | cons g1 rest ih =>
    simp only [List.map_cons, List.nodup_cons] at hnodup
    rcases List.mem_cons.mp hmem with hg | hg
    · subst hg
      rw [literalLoop, literalLoop_get_of_not_mem]
      · rw [dictGet_dictSet, if_pos rfl]
      · intro g2 hg2 heq
        exact hnodup.1 (heq ▸ List.mem_map_of_mem ZGroup.name hg2)
    · exact ih _ hnodup.2 hg

theorem literalLoop_get_some (host : List String) (dm : Option String) (md : Nat)
    (acc : List (String × GroupRec)) (gs : List ZGroup) (n : String) (v : GroupRec)
    (h : dictGet (literalLoop host dm md acc gs) n = some v) :
    dictGet acc n = some v ∨ ∃ g ∈ gs, g.name = n ∧ v = classifyZGroup host dm md g := by
  induction gs generalizing acc with
  | nil => exact Or.inl h
  | cons g1 rest ih =>
    rw [literalLoop] at h
    rcases ih _ h with h1 | h1
    · rw [dictGet_dictSet] at h1
      by_cases hg : g1.name = n
      · right
        refine ⟨g1, List.mem_cons_self g1 rest, hg, ?_⟩
        rw [if_pos hg] at h1
        exact (Option.some.inj h1).symm
      · rw [if_neg hg] at h1
        exact Or.inl h1
    · obtain ⟨g2, hg2, hname, hval⟩ := h1
      exact Or.inr ⟨g2, List.mem_cons_of_mem g1 hg2, hname, hval⟩

theorem literalLoop_keys_nodup (host : List String) (dm : Option String) (md : Nat)
    (acc : List (String × GroupRec)) (gs : List ZGroup)
    (h : (dictKeys acc).Nodup) :
    (dictKeys (literalLoop host dm md acc gs)).Nodup := by
  induction gs generalizing acc with
  | nil => exact h
  | cons g1 rest ih => exact ih _ (dictKeys_nodup_dictSet _ _ _ h)

theorem scanElements_dim_le (g : ZGroup) (gs d : Nat) : (scanElements g gs d).2 ≤ d := by
  induction d generalizing gs with
  | zero => simp [scanElements]
  | succ d2 ih =>
    rw [scanElements]
    cases h : g.elems (d2 + 1) with
    | none => exact Nat.le_succ_of_le (ih gs)
    | some es =>
      by_cases h2 : es.length > 0
      · simp [h2]
      · simp only [if_neg h2]
        exact Nat.le_succ_of_le (ih es.length)

theorem scanElements_spec (g : ZGroup) (d : Nat) :
    ((scanElements g 0 d).2 = 0 → (scanElements g 0 d).1 = 0) ∧
    (0 < (scanElements g 0 d).2 →
      ∃ es, g.elems (scanElements g 0 d).2 = some es ∧
        (scanElements g 0 d).1 = es.length ∧ 0 < es.length) ∧
    (∀ d2, (scanElements g 0 d).2 < d2 → d2 ≤ d →
      g.elems d2 = none ∨ g.elems d2 = some []) := by
  induction d with
  | zero =>
    refine ⟨fun _ => rfl, fun h => absurd h (by simp [scanElements]), fun d2 _ h2 => ?_⟩
    omega
  | succ d2 ih =>
    rw [scanElements]
    cases h : g.elems (d2 + 1) with
    | none =>
      refine ⟨ih.1, ih.2.1, fun d3 h3 h4 => ?_⟩
      rcases Nat.lt_or_ge d3 (d2 + 1) with h5 | h5
      · exact ih.2.2 d3 h3 (by omega)
      · have : d3 = d2 + 1 := by omega
        exact Or.inl (this ▸ h)
    | some es =>
      by_cases h2 : es.length > 0
      · simp only [if_pos h2]
        refine ⟨fun h3 => by simp at h3, fun _ => ⟨es, h, rfl, h2⟩, fun d3 h3 h4 => ?_⟩
        omega
      · have hlen : es.length = 0 := by omega
        simp only [if_neg h2, hlen]
        refine ⟨ih.1, ih.2.1, fun d3 h3 h4 => ?_⟩
        rcases Nat.lt_or_ge d3 (d2 + 1) with h5 | h5
        · exact ih.2.2 d3 h3 (by omega)
        · have h6 : d3 = d2 + 1 := by omega
          right
          rw [h6, h, List.length_eq_zero.mp hlen]

theorem markerCount_append (pts : List MarkerPoint) (pt : MarkerPoint) (n : String) :
    markerCount (pts ++ [pt]) n =
      markerCount pts n + (if pt.markerNameValue = some n then 1 else 0) := by
  unfold markerCount
  rw [List.filter_append, List.length_append]
  by_cases h : pt.markerNameValue = some n <;>
    simp [List.filter_cons, h]

theorem markerCount_eq_zero (pts : List MarkerPoint) (n : String)
    (h : ∀ pt ∈ pts, pt.markerNameValue ≠ some n) : markerCount pts n = 0 := by
  unfold markerCount
  rw [List.length_eq_zero, List.filter_eq_nil_iff]
  intro pt hpt
  simpa using h pt hpt

theorem exists_marker_append_iff (processed : List MarkerPoint) (pt : MarkerPoint)
    (n : String) (hne : pt.markerNameValue ≠ some n) :
    (∃ pt2 ∈ processed ++ [pt], pt2.markerNameValue = some n) ↔
      ∃ pt2 ∈ processed, pt2.markerNameValue = some n := by
  constructor
  · rintro ⟨pt2, hmem, hv⟩
    rcases List.mem_append.mp hmem with h | h
    · exact ⟨pt2, h, hv⟩
    · simp only [List.mem_singleton] at h
      subst h
      exact absurd hv hne
  · rintro ⟨pt2, hmem, hv⟩
    exact ⟨pt2, List.mem_append_left _ hmem, hv⟩

theorem dictGet_markerStep_other (host : List String) (mgn : Option String)
    (acc : List (String × GroupRec)) (pt : MarkerPoint) (n : String)
    (hne : pt.markerNameValue ≠ some n) :
    dictGet (markerStep host mgn acc pt) n = dictGet acc n := by
  unfold markerStep
  split
  · rfl
  · rename_i mn heq
    have hmn : ¬ mn = n := fun h => hne (by rw [heq, h])
    split
    · rfl
    · split
      · rw [dictGet_dictSet, if_neg hmn]
      · rw [dictGet_dictSet, if_neg hmn]

theorem dictGet_markerStep_self (host : List String) (mgn : Option String)
    (acc : List (String × GroupRec)) (pt : MarkerPoint) (mn : String)
    (hname : pt.markerNameValue = some mn) (hmn : mn ≠ "") :
    dictGet (markerStep host mgn acc pt) mn = some
      (match dictGet acc mn with
        | some d => { d with size := d.size + 1 }
        | none =>
          { embed := !(host.contains mn || mgn == some mn)
            dimension := 0
            size := 0 + 1 }) := by
  unfold markerStep
  split
  · rename_i heq
    rw [hname] at heq
    cases heq
  · rename_i mn2 heq
    rw [hname] at heq
    cases heq
    rw [if_neg hmn]
    split
    · rename_i d hd
      rw [dictGet_dictSet, if_pos rfl]
    · rename_i hd
      rw [dictGet_dictSet, if_pos rfl]

theorem markerStep_keys_nodup (host : List String) (mgn : Option String)
    (acc : List (String × GroupRec)) (pt : MarkerPoint)
    (h : (dictKeys acc).Nodup) : (dictKeys (markerStep host mgn acc pt)).Nodup := by
  unfold markerStep
  split
  · exact h
  · split
    · exact h
    · split
      · exact dictKeys_nodup_dictSet _ _ _ h
      · exact dictKeys_nodup_dictSet _ _ _ h

theorem markerStep_inv (host : List String) (mgn : Option String)
    (processed : List MarkerPoint) (acc : List (String × GroupRec)) (pt : MarkerPoint)
    (h : MarkerInv host mgn processed acc) :
    MarkerInv host mgn (processed ++ [pt]) (markerStep host mgn acc pt) := by
  obtain ⟨hnodup, hinv⟩ := h
  refine ⟨markerStep_keys_nodup host mgn acc pt hnodup, fun n => ?_⟩
  by_cases hself : pt.markerNameValue = some n ∧ n ≠ ""
  · obtain ⟨hname, hn⟩ := hself
    rw [dictGet_markerStep_self host mgn acc pt n hname hn]
    constructor
    · simp only [Option.isSome_some, true_iff]
      exact ⟨hn, pt, List.mem_append_right _ (by simp), hname⟩
    · intro rec hrec
      have hrec2 := Option.some.inj hrec
      cases hd : dictGet acc n with
      | some d =>
        rw [hd] at hrec2
        subst hrec2
        have hold := (hinv n).2 d hd
        refine ⟨hold.1, ?_, hold.2.2⟩
        show d.size + 1 = markerCount (processed ++ [pt]) n
        rw [markerCount_append, if_pos hname, hold.2.1]
      | none =>
        rw [hd] at hrec2
        subst hrec2
        have hcount : markerCount processed n = 0 := by
          apply markerCount_eq_zero
          intro pt2 hpt2 hv
          have h2 : (dictGet acc n).isSome := (hinv n).1.mpr ⟨hn, pt2, hpt2, hv⟩
          rw [hd] at h2
          cases h2
        refine ⟨rfl, ?_, rfl⟩
        show 0 + 1 = markerCount (processed ++ [pt]) n
        rw [markerCount_append, if_pos hname, hcount]
  · -- this point does not contribute a (new) record under name n
    have hget : dictGet (markerStep host mgn acc pt) n = dictGet acc n := by
      by_cases hname : pt.markerNameValue = some n
      · have hn : n = "" := by
          by_contra hc
          exact hself ⟨hname, hc⟩
        subst hn
        unfold markerStep
        split
        · rfl
        · rename_i mn2 heq
          rw [hname] at heq
          cases heq
          split
          · rfl
          · rename_i h0
            exact absurd rfl h0
      · exact dictGet_markerStep_other host mgn acc pt n hname
    rw [hget]
    by_cases hname : pt.markerNameValue = some n
    · -- n must be the empty string, which is never recorded
      have hn : n = "" := by
        by_contra hc
        exact hself ⟨hname, hc⟩
      subst hn
      constructor
      · rw [(hinv "").1]
        simp
      · intro rec hrec
        have h1 := (hinv "").1.mp (by simp [hrec])
        exact absurd h1.1 (by simp)
    · constructor
      · rw [(hinv n).1, exists_marker_append_iff processed pt n hname]
      · intro rec hrec
        have hold := (hinv n).2 rec hrec
        rw [markerCount_append, if_neg hname]
        simpa using hold

theorem markerLoop_inv (host : List String) (mgn : Option String)
    (pts : List MarkerPoint) (processed : List MarkerPoint)
    (acc : List (String × GroupRec)) (h : MarkerInv host mgn processed acc) :
    MarkerInv host mgn (processed ++ pts) (markerLoop host mgn acc pts) := by
  induction pts generalizing processed acc with
  | nil => simpa using h
  | cons pt rest ih =>
    have h2 := markerStep_inv host mgn processed acc pt h
    have h3 := ih (processed ++ [pt]) _ h2
    simpa using h3

theorem markerGroupData_inv (host : List String) (mgn : Option String)
    (pts : List MarkerPoint) :
    MarkerInv host mgn pts (markerGroupData host mgn pts) := by
  have h0 : MarkerInv host mgn [] [] := by
    refine ⟨List.nodup_nil, fun n => ⟨by simp [dictGet], fun rec hrec => by cases hrec⟩⟩
  simpa using markerLoop_inv host mgn pts [] [] h0

/-! ## Lemma about the embed transfer pass -/

theorem dictGet_transferEmbed (st : EmbedderState) (gd : List (String × GroupRec))
    (n : String) :
    dictGet (transferEmbed st gd) n = (dictGet gd n).map fun v =>
      if (dictGet st.groupData n).isSome then
        { v with embed := (isDataGroupEmbed st n).1 }
      else v := by
  induction gd with
  | nil => rfl
  | cons hd tl ih =>
    obtain ⟨k1, v1⟩ := hd
    by_cases h1 : k1 = n
    · subst h1
      simp [transferEmbed, dictGet]
    · simp only [transferEmbed, List.map_cons] at ih ⊢
      rw [dictGet, dictGet, if_neg h1, if_neg h1]
      exact ih

theorem dictUpdate_keys_nodup (base upd : List (String × α))
    (h : (dictKeys base).Nodup) : (dictKeys (dictUpdate base upd)).Nodup := by
  induction upd generalizing base with
  | nil => exact h
  | cons hd tl ih =>
    obtain ⟨k1, v1⟩ := hd
    exact ih _ (dictKeys_nodup_dictSet _ _ _ h)

theorem dictKeys_transferEmbed (st : EmbedderState) (gd : List (String × GroupRec)) :
    dictKeys (transferEmbed st gd) = dictKeys gd := by
  induction gd with
  | nil => rfl
  | cons hd tl ih => simp [transferEmbed, dictKeys]

/-- A literal data group always wins the merge: its classified record is what
classifiedGroupData holds under its name. -/
theorem classifiedGroupData_literal (hostGroupNames : List String)
    (dm dmn : Option String) (hnf : Bool) (r : DataRegion)
    (hnodup : (r.groups.map ZGroup.name).Nodup) (g : ZGroup) (hg : g ∈ r.groups) :
    dictGet (classifiedGroupData hostGroupNames dm dmn hnf r) g.name =
      some (classifyZGroup hostGroupNames dm r.maxDimension g) := by
  have hlit := literalLoop_get_mem hostGroupNames dm r.maxDimension [] r.groups g hnodup hg
  unfold classifiedGroupData
  by_cases hm : dm.isSome && hnf
  · rw [if_pos hm,
      dictGet_dictUpdate _ _ _ (literalLoop_keys_nodup _ _ _ [] r.groups List.nodup_nil),
      hlit]
  · rw [if_neg hm]
    exact hlit

/-- A name that is not the name of any literal data group resolves in
classifiedGroupData to its marker pseudo-group record (when the marker pass
ran, else to nothing). -/
theorem classifiedGroupData_pseudo (hostGroupNames : List String)
    (dm dmn : Option String) (hnf : Bool) (r : DataRegion) (n : String)
    (hn : ∀ g ∈ r.groups, g.name ≠ n) :
    dictGet (classifiedGroupData hostGroupNames dm dmn hnf r) n =
      if dm.isSome && hnf then
        dictGet (markerGroupData hostGroupNames dmn r.markerPoints) n
      else none := by
  have hlit : dictGet (literalLoop hostGroupNames dm r.maxDimension [] r.groups) n = none := by
    rw [literalLoop_get_of_not_mem _ _ _ _ _ _ hn]
    rfl
  unfold classifiedGroupData
  by_cases hm : dm.isSome && hnf
  · rw [if_pos hm, if_pos hm,
      dictGet_dictUpdate _ _ _ (literalLoop_keys_nodup _ _ _ [] r.groups List.nodup_nil),
      hlit]
  · rw [if_neg hm, if_neg hm]
    exact hlit

/-- Claim C1: for every data group classified during load, the default embed
flag equals NOT (the group name also names a group in the host region OR the
group size is 0 OR the group is the designated data marker group); the
default applies because the name has no prior stored setting. -/
theorem C1_embed_default (hostGroupNames : List String) (st : EmbedderState)
    (r : DataRegion) (hnodup : (r.groups.map ZGroup.name).Nodup)
    (g : ZGroup) (hg : g ∈ r.groups)
    (hprior : dictGet st.groupData g.name = none) :
    ∃ rec, dictGet (buildDataGroups hostGroupNames st r) g.name = some rec ∧
      rec.embed = !(hostGroupNames.contains g.name || decide (rec.size = 0)
        || st.dataMarkerGroup == some g.name) := by
  have hclass := classifiedGroupData_literal hostGroupNames st.dataMarkerGroup
    st.dataMarkerGroupName st.dataMarkerNameField.isSome r hnodup g hg
  rw [buildDataGroups, dictGet_transferEmbed, hclass]
  rw [hprior]
  exact ⟨_, rfl, rfl⟩

/-- Claim C4: reclassification after settings are serialised by
encodeSettingsJSON and restored by decodeSettingsJSON keeps the prior embed
flag for every resulting name present in the prior group data and gives
exactly the freshly classified record to every other name. -/
theorem C4_override_persistence (hostGroupNames : List String)
    (st st0 st2 : EmbedderState) (r : DataRegion)
    (hdec : decodeSettingsJSON st0 (encodeSettingsJSON st) = Except.ok st2)
    (n : String) (rec : GroupRec)
    (h : dictGet (buildDataGroups hostGroupNames st2 r) n = some rec) :
    (∀ p, dictGet st.groupData n = some p → rec.embed = p.embed) ∧
    (dictGet st.groupData n = none →
      dictGet (classifiedGroupData hostGroupNames st2.dataMarkerGroup
        st2.dataMarkerGroupName st2.dataMarkerNameField.isSome r) n = some rec) := by
  have hgd : st2.groupData = st.groupData := by
    have h2 := hdec
    simp only [decodeSettingsJSON, encodeSettingsJSON] at h2
    cases h2
    rfl
  rw [buildDataGroups, dictGet_transferEmbed] at h
  cases hc : dictGet (classifiedGroupData hostGroupNames st2.dataMarkerGroup
      st2.dataMarkerGroupName st2.dataMarkerNameField.isSome r) n with
  | none => rw [hc] at h; cases h
  | some c =>
    rw [hc] at h
    simp only [Option.map_some'] at h
    constructor
    · intro p hp
      have hsome : (dictGet st2.groupData n).isSome := by rw [hgd, hp]; rfl
      rw [if_pos hsome] at h
      have hembed : (isDataGroupEmbed st2 n).1 = p.embed := by
        unfold isDataGroupEmbed
        rw [hgd, hp]
      cases h
      exact hembed
    · intro hnone
      have hsome : ¬ (dictGet st2.groupData n).isSome := by rw [hgd, hnone]; simp
      rw [if_neg hsome] at h
      exact h

/-- Claim C5: with a data marker group and marker name field set,
classification yields nodup-keyed group data in which every name that is not
a literal dataset group name has a record exactly when some marker point
carries it as a non-empty name value, that record having dimension 0, size
the number of marker points sharing the name, and default embed
NOT (name also names a host group OR name equals the marker group name);
literal dataset groups take precedence over same-named pseudo-groups. -/
theorem C5_marker_pseudo_groups (hostGroupNames : List String) (st : EmbedderState)
    (r : DataRegion) (mgName : String)
    (hnodup : (r.groups.map ZGroup.name).Nodup)
    (hmg : st.dataMarkerGroup = some mgName)
    (hmgn : st.dataMarkerGroupName = some mgName)
    (hnf : st.dataMarkerNameField.isSome = true)
    (hprior : st.groupData = []) :
    (dictKeys (buildDataGroups hostGroupNames st r)).Nodup ∧
    (∀ n : String, n ∉ r.groups.map ZGroup.name →
      (((dictGet (buildDataGroups hostGroupNames st r) n).isSome ↔
        (n ≠ "" ∧ ∃ pt ∈ r.markerPoints, pt.markerNameValue = some n)) ∧
      (∀ rec, dictGet (buildDataGroups hostGroupNames st r) n = some rec →
        rec.dimension = 0 ∧ rec.size = markerCount r.markerPoints n ∧
        rec.embed = !(hostGroupNames.contains n || (mgName == n))))) ∧
    (∀ g ∈ r.groups, dictGet (buildDataGroups hostGroupNames st r) g.name =
      some (classifyZGroup hostGroupNames st.dataMarkerGroup r.maxDimension g)) := by
  have hm : (st.dataMarkerGroup.isSome && st.dataMarkerNameField.isSome) = true := by
    rw [hmg, hnf]
    rfl
  have hinv := markerGroupData_inv hostGroupNames st.dataMarkerGroupName r.markerPoints
  have htrans : ∀ n, dictGet (buildDataGroups hostGroupNames st r) n =
      dictGet (classifiedGroupData hostGroupNames st.dataMarkerGroup
        st.dataMarkerGroupName st.dataMarkerNameField.isSome r) n := by
    intro n
    rw [buildDataGroups, dictGet_transferEmbed, hprior]
    cases dictGet (classifiedGroupData hostGroupNames st.dataMarkerGroup
        st.dataMarkerGroupName st.dataMarkerNameField.isSome r) n <;> rfl
  refine ⟨?_, ?_, ?_⟩
  · rw [buildDataGroups, dictKeys_transferEmbed]
    unfold classifiedGroupData
    rw [if_pos hm]
    exact dictUpdate_keys_nodup _ _ hinv.1
  · intro n hn
    have hn2 : ∀ g ∈ r.groups, g.name ≠ n := by
      intro g hg heq
      exact hn (heq ▸ List.mem_map_of_mem ZGroup.name hg)
    have hch := classifiedGroupData_pseudo hostGroupNames st.dataMarkerGroup
      st.dataMarkerGroupName st.dataMarkerNameField.isSome r n hn2
    rw [if_pos hm] at hch
    constructor
    · rw [htrans n, hch]
      exact (hinv.2 n).1
    · intro rec hrec
      rw [htrans n, hch] at hrec
      have hfields := (hinv.2 n).2 rec hrec
      refine ⟨hfields.1, hfields.2.1, ?_⟩
      rw [hfields.2.2, hmgn]
      rfl
  · intro g hg
    rw [htrans g.name]
    exact classifiedGroupData_literal hostGroupNames st.dataMarkerGroup
      st.dataMarkerGroupName st.dataMarkerNameField.isSome r hnodup g hg

theorem maxDimension_le_three (r : DataRegion) : r.maxDimension ≤ 3 := by
  unfold DataRegion.maxDimension
  split
  · omega
  · split
    · omega
    · split <;> omega

/-- Any record held by the classified group data has dimension at most 3. -/
theorem classified_dimension_le (hostGroupNames : List String)
    (dm dmn : Option String) (hnf : Bool) (r : DataRegion) (n : String) (rec : GroupRec)
    (h : dictGet (classifiedGroupData hostGroupNames dm dmn hnf r) n = some rec) :
    rec.dimension ≤ 3 := by
  have hlit : ∀ v : GroupRec,
      dictGet (literalLoop hostGroupNames dm r.maxDimension [] r.groups) n = some v →
      v.dimension ≤ 3 := by
    intro v hv
    rcases literalLoop_get_some hostGroupNames dm r.maxDimension [] r.groups n v hv with
      h1 | ⟨g, _, _, hval⟩
    · cases h1
    · rw [hval]
      exact le_trans (scanElements_dim_le g 0 r.maxDimension) (maxDimension_le_three r)
  unfold classifiedGroupData at h
  by_cases hm : dm.isSome && hnf
  · rw [if_pos hm, dictGet_dictUpdate _ _ _
      (literalLoop_keys_nodup _ _ _ [] r.groups List.nodup_nil)] at h
    cases hl : dictGet (literalLoop hostGroupNames dm r.maxDimension [] r.groups) n with
    | some v =>
      rw [hl] at h
      cases h
      exact hlit _ hl
    | none =>
      rw [hl] at h
      have hinv := markerGroupData_inv hostGroupNames dmn r.markerPoints
      rw [((hinv.2 n).2 rec h).1]
      omega
  · rw [if_neg hm] at h
    exact hlit _ h

/-- Claim C9 (amended): every record enumerable after classification has
dimension in 0..3; for a literal data group the recorded size is the element
count at the recorded dimension when it is positive, and the datapoint count
of the group (0 when it has no datapoint group) when the dimension is 0. -/
theorem C9_dimension_size (hostGroupNames : List String) (st : EmbedderState)
    (r : DataRegion) (hnodup : (r.groups.map ZGroup.name).Nodup) :
    (∀ n rec, dictGet (buildDataGroups hostGroupNames st r) n = some rec →
      rec.dimension ≤ 3) ∧
    (∀ g ∈ r.groups,
      ∃ rec, dictGet (buildDataGroups hostGroupNames st r) g.name = some rec ∧
        ((0 < rec.dimension →
          ∃ es, g.elems rec.dimension = some es ∧ rec.size = es.length ∧ 0 < es.length) ∧
        (rec.dimension = 0 →
          rec.size = match g.points with | some ps => ps.length | none => 0))) := by
  constructor
  · intro n rec hrec
    rw [buildDataGroups, dictGet_transferEmbed] at hrec
    cases hc : dictGet (classifiedGroupData hostGroupNames st.dataMarkerGroup
        st.dataMarkerGroupName st.dataMarkerNameField.isSome r) n with
    | none => rw [hc] at hrec; cases hrec
    | some c =>
      rw [hc] at hrec
      simp only [Option.map_some'] at hrec
      have hrec2 := Option.some.inj hrec
      have hd : rec.dimension = c.dimension := by
        rw [← hrec2]
        by_cases hs : (dictGet st.groupData n).isSome
        · rw [if_pos hs]
        · rw [if_neg hs]
      rw [hd]
      exact classified_dimension_le hostGroupNames st.dataMarkerGroup
        st.dataMarkerGroupName st.dataMarkerNameField.isSome r n c hc
  · intro g hg
    have hclass := classifiedGroupData_literal hostGroupNames st.dataMarkerGroup
      st.dataMarkerGroupName st.dataMarkerNameField.isSome r hnodup g hg
    rw [buildDataGroups, dictGet_transferEmbed, hclass]
    simp only [Option.map_some']
    set c := classifyZGroup hostGroupNames st.dataMarkerGroup r.maxDimension g with hc
    have hdim : ∀ b : Bool,
        ({ c with embed := b } : GroupRec).dimension = c.dimension := fun _ => rfl
    have hspec := scanElements_spec g r.maxDimension
    have hcd : c.dimension = (scanElements g 0 r.maxDimension).2 := rfl
    have hsize : c.size = (classifyZGroup hostGroupNames st.dataMarkerGroup
        r.maxDimension g).size := rfl
    refine ⟨_, rfl, ?_, ?_⟩
    · intro hpos
      by_cases hs : (dictGet st.groupData g.name).isSome
      · simp only [if_pos hs] at hpos ⊢
        have hpos2 : 0 < (scanElements g 0 r.maxDimension).2 := hpos
        obtain ⟨es, hes, hlen, hgt⟩ := hspec.2.1 hpos2
        refine ⟨es, hes, ?_, hgt⟩
        show c.size = es.length
        rw [hc]
        unfold classifyZGroup
        simp only
        rw [if_neg (by omega), hlen]
      · simp only [if_neg hs] at hpos ⊢
        have hpos2 : 0 < (scanElements g 0 r.maxDimension).2 := hpos
        obtain ⟨es, hes, hlen, hgt⟩ := hspec.2.1 hpos2
        refine ⟨es, hes, ?_, hgt⟩
        show c.size = es.length
        rw [hc]
        unfold classifyZGroup
        simp only
        rw [if_neg (by omega), hlen]
    · intro hzero
      by_cases hs : (dictGet st.groupData g.name).isSome
      · simp only [if_pos hs] at hzero ⊢
        have hzero2 : (scanElements g 0 r.maxDimension).2 = 0 := hzero
        have hs1 : (scanElements g 0 r.maxDimension).1 = 0 := hspec.1 hzero2
        show c.size = _
        rw [hc]
        unfold classifyZGroup
        simp only
        rw [if_pos hs1]
        cases g.points with
        | none => exact hs1
        | some ps => rfl
      · simp only [if_neg hs] at hzero ⊢
        have hzero2 : (scanElements g 0 r.maxDimension).2 = 0 := hzero
        have hs1 : (scanElements g 0 r.maxDimension).1 = 0 := hspec.1 hzero2
        show c.size = _
        rw [hc]
        unfold classifyZGroup
        simp only
        rw [if_pos hs1]
        cases g.points with
        | none => exact hs1
        | some ps => rfl

/-- Claim C9 counterexample: a data group with zero elements at every
dimension and zero points is still enumerated as an existing group after
classification, contrary to the claim: hasDataGroup answers true, the name
is listed by getDataGroupNames, and the record is embed false, dimension 0,
size 0. -/
theorem C9_counterexample :
    emptyZGroup.elems1 = none ∧ emptyZGroup.elems2 = none ∧
    emptyZGroup.elems3 = none ∧ emptyZGroup.points = none ∧
    hasDataGroup c9State "empty" = true ∧
    getDataGroupNames c9State = ["empty"] ∧
    dictGet c9State.groupData "empty" =
      some { embed := false, dimension := 0, size := 0 } := by
  refine ⟨rfl, rfl, rfl, rfl, ?_, ?_, ?_⟩ <;> decide

/-- Claim C6 counterexample: for an unknown group name getDataGroupSize
returns -1, not the zero default the claim states (getDataGroupDimension
does return 0 and isDataGroupEmbed false). -/
theorem C6_counterexample :
    (getDataGroupSize initialState "missing").1 = -1 ∧ (-1 : Int) ≠ 0 := by
  refine ⟨?_, by decide⟩
  decide

/-- Claim C6 (amended): querying an unknown group name prints the diagnostic
and returns a defined default instead of raising: 0 for dimension, false for
embed, and -1 (not 0) for size. -/
theorem C6_unknown_group_defaults (st : EmbedderState) (groupName : String)
    (h : dictGet st.groupData groupName = none) :
    getDataGroupDimension st groupName = (0, true) ∧
    isDataGroupEmbed st groupName = (false, true) ∧
    getDataGroupSize st groupName = (-1, true) := by
  unfold getDataGroupDimension isDataGroupEmbed getDataGroupSize
  rw [h]
  exact ⟨rfl, rfl, rfl⟩

/-- Claim C6 (amended) witness at a concrete unknown name. -/
theorem C6_unknown_group_defaults_witness :
    getDataGroupDimension initialState "missing" = (0, true) ∧
    isDataGroupEmbed initialState "missing" = (false, true) ∧
    getDataGroupSize initialState "missing" = (-1, true) :=
  C6_unknown_group_defaults initialState "missing" rfl

/-- Claim C10: decodeSettingsJSON succeeds on a settings object exactly when
the diagnosticLevel and groupData keys are both present (raising KeyError
otherwise), while the five name settings are optional and are read with
dict.get, defaulting to None when absent. -/
theorem C10_decode_settings (st : EmbedderState) (dct : SettingsJSON) :
    ((∃ st2, decodeSettingsJSON st dct = Except.ok st2) ↔
      (dct.diagnosticLevel.isSome ∧ dct.groupData.isSome)) ∧
    (∀ st2, decodeSettingsJSON st dct = Except.ok st2 →
      st2.fittedCoordinatesFieldName = dct.fittedCoordinatesField ∧
      st2.materialCoordinatesFieldName = dct.materialCoordinatesField ∧
      st2.hostMarkerGroupName = dct.hostMarkerGroup ∧
      st2.dataCoordinatesFieldName = dct.dataCoordinatesField ∧
      st2.dataMarkerGroupName = dct.dataMarkerGroup ∧
      dct.diagnosticLevel = some st2.diagnosticLevel ∧
      dct.groupData = some st2.groupData) := by
  unfold decodeSettingsJSON
  cases hd : dct.diagnosticLevel with
  | none =>
    constructor
    · simp
    · intro st2 h2
      cases h2
  | some lvl =>
    cases hg : dct.groupData with
    | none =>
      constructor
      · simp
      · intro st2 h2
        cases h2
    | some gd =>
      constructor
      · simp
      · intro st2 h2
        cases h2
        refine ⟨rfl, rfl, rfl, rfl, rfl, ?_, ?_⟩ <;> rfl

/-- Claim C8 counterexample: clearing the data marker group to None is a
mutation (the setter reports the group changed) that does not mark the
output dirty, so the following generateOutput still returns the cached
region: the claim that any data marker group mutation marks the output
dirty fails on this input. -/
theorem C8_counterexample :
    (setDataMarkerGroup c8State none none none).2 = true ∧
    (setDataMarkerGroup c8State none none none).1.dataMarkerGroup = none ∧
    (setDataMarkerGroup c8State none none none).1.needGenerateOutput = false ∧
    (generateOutput (setDataMarkerGroup c8State none none none).1).2 = 1 ∧
    (generateOutput (setDataMarkerGroup c8State none none none).1).1 =
      (setDataMarkerGroup c8State none none none).1 := by
  refine ⟨?_, ?_, ?_, ?_, ?_⟩ <;> decide

/-- Claim C8 (amended): generateOutput returns the cached region unchanged
when the dirty flag is clear and clears the flag when it regenerates, so a
second call with no intervening mutation returns the identical cached
output; changing a group embed flag, setting a different fitted, material or
data coordinates field, or setting a different non-None data marker group
marks the output dirty; the one exception is clearing the data marker group
to None, which reports a change but leaves the dirty flag untouched. -/
theorem C8_output_cache (st : EmbedderState) :
    (st.needGenerateOutput = false → generateOutput st = (st, st.outputGeneration)) ∧
    ((generateOutput st).1.needGenerateOutput = false) ∧
    (generateOutput (generateOutput st).1 = ((generateOutput st).1, (generateOutput st).2)) ∧
    (∀ n e d, dictGet st.groupData n = some d → d.embed ≠ e →
      (setDataGroupEmbed st n e).1.needGenerateOutput = true) ∧
    (∀ f, st.fittedCoordinatesField ≠ some f →
      (setFittedCoordinatesField st f).1.needGenerateOutput = true) ∧
    (∀ f, st.materialCoordinatesField ≠ some f →
      (setMaterialCoordinatesField st f).1.needGenerateOutput = true) ∧
    (∀ f, st.dataCoordinatesField ≠ some f →
      (setDataCoordinatesField st f).1.needGenerateOutput = true) ∧
    (∀ g cf nf, st.dataMarkerGroup ≠ some g →
      (setDataMarkerGroup st (some g) cf nf).1.needGenerateOutput = true) ∧
    (∀ cf nf, st.dataMarkerGroup ≠ none →
      (setDataMarkerGroup st none cf nf).2 = true ∧
      (setDataMarkerGroup st none cf nf).1.needGenerateOutput = st.needGenerateOutput) := by
  refine ⟨?_, ?_, ?_, ?_, ?_, ?_, ?_, ?_, ?_⟩
  · intro hclean
    simp [generateOutput, hclean]
  · by_cases h : st.needGenerateOutput <;> simp [generateOutput, h]
  · by_cases h : st.needGenerateOutput <;> simp [generateOutput, h]
  · intro n e d hd hne
    unfold setDataGroupEmbed
    rw [hd]
    simp only [bne_iff_ne, ne_eq, hne, not_false_eq_true, if_true]
  · intro f hne
    unfold setFittedCoordinatesField
    rw [if_neg (fun h => hne h.symm)]
  · intro f hne
    unfold setMaterialCoordinatesField
    rw [if_neg (fun h => hne h.symm)]
  · intro f hne
    unfold setDataCoordinatesField
    rw [if_neg (fun h => hne h.symm)]
  · intro g cf nf hne
    unfold setDataMarkerGroup
    rw [if_neg (fun h => hne h.symm)]
  · intro cf nf hne
    unfold setDataMarkerGroup
    rw [if_neg (fun h => hne h.symm)]
    exact ⟨rfl, rfl⟩

/-- Claim C8 (amended) witness: at c8State the cached output is returned,
flipping an embed flag is not applicable (no groups), so exercise the
coordinate and marker setters concretely. -/
theorem C8_output_cache_witness :
    generateOutput c8State = (c8State, c8State.outputGeneration) ∧
    (setFittedCoordinatesField c8State "fitted coordinates").1.needGenerateOutput = true ∧
    (setDataMarkerGroup c8State (some "marker 2") none none).1.needGenerateOutput = true ∧
    (setDataMarkerGroup c8State none none none).2 = true ∧
    (setDataMarkerGroup c8State none none none).1.needGenerateOutput =
      c8State.needGenerateOutput :=
  ⟨(C8_output_cache c8State).1 rfl,
    (C8_output_cache c8State).2.2.2.2.1 "fitted coordinates" (by decide),
    (C8_output_cache c8State).2.2.2.2.2.2.2.1 "marker 2" none none (by decide),
    ((C8_output_cache c8State).2.2.2.2.2.2.2.2 none none (by decide)).1,
    ((C8_output_cache c8State).2.2.2.2.2.2.2.2 none none (by decide)).2⟩

/-- Claim C1 witness: the default embed flag of the "payload" group in a
concrete region, classified from a fresh state. -/
theorem C1_embed_default_witness :
    ∃ rec, dictGet (buildDataGroups ["bottom"] initialState c1Region) "payload" =
        some rec ∧
      rec.embed = !((["bottom"] : List String).contains "payload"
        || decide (rec.size = 0) || initialState.dataMarkerGroup == some "payload") :=
  C1_embed_default ["bottom"] initialState c1Region (by decide) payloadGroup
    (by decide) rfl

/-- Claim C4 witness: the prior embed override false for "payload" survives
a reclassification through an encode / decode round trip. -/
theorem C4_override_persistence_witness :
    ({ embed := false, dimension := 1, size := 2 } : GroupRec).embed =
      ({ embed := false, dimension := 0, size := 5 } : GroupRec).embed :=
  (C4_override_persistence ["bottom"] c4PriorState initialState c4DecodedState
      c1Region rfl "payload" { embed := false, dimension := 1, size := 2 }
      (by decide)).1
    { embed := false, dimension := 0, size := 5 } (by decide)

/-- Claim C5 witness: the "apex" pseudo-group derived from two marker points
of that name in a concrete region. -/
theorem C5_marker_pseudo_groups_witness :
    (dictKeys (buildDataGroups ["bottom"] c5State c5Region)).Nodup ∧
    (({ embed := true, dimension := 0, size := 2 } : GroupRec).dimension = 0 ∧
      ({ embed := true, dimension := 0, size := 2 } : GroupRec).size =
        markerCount c5MarkerPoints "apex" ∧
      ({ embed := true, dimension := 0, size := 2 } : GroupRec).embed =
        !((["bottom"] : List String).contains "apex" || ("marker" == "apex"))) :=
  ⟨(C5_marker_pseudo_groups ["bottom"] c5State c5Region "marker" (by decide)
      rfl rfl rfl rfl).1,
    ((C5_marker_pseudo_groups ["bottom"] c5State c5Region "marker" (by decide)
        rfl rfl rfl rfl).2.1 "apex" (by decide)).2
      { embed := true, dimension := 0, size := 2 } (by decide)⟩

/-- Claim C9 (amended) witness at the concrete "payload" group. -/
theorem C9_dimension_size_witness :
    (({ embed := true, dimension := 1, size := 2 } : GroupRec).dimension ≤ 3) ∧
    (∃ rec, dictGet (buildDataGroups ["bottom"] initialState c1Region) "payload" =
        some rec ∧
      ((0 < rec.dimension → ∃ es, payloadGroup.elems rec.dimension = some es ∧
          rec.size = es.length ∧ 0 < es.length) ∧
      (rec.dimension = 0 →
        rec.size = match payloadGroup.points with | some ps => ps.length | none => 0))) :=
  ⟨(C9_dimension_size ["bottom"] initialState c1Region (by decide)).1 "payload"
      { embed := true, dimension := 1, size := 2 } (by decide),
    (C9_dimension_size ["bottom"] initialState c1Region (by decide)).2 payloadGroup
      (by decide)⟩

/-- Claim C10 witness: decoding a concrete settings object with both
required keys present succeeds and restores the optional names. -/
theorem C10_decode_settings_witness :
    (∃ st2, decodeSettingsJSON initialState c10Dict = Except.ok st2) ∧
    c10Decoded.dataMarkerGroupName = c10Dict.dataMarkerGroup ∧
    c10Decoded.fittedCoordinatesFieldName = c10Dict.fittedCoordinatesField :=
  ⟨(C10_decode_settings initialState c10Dict).1.mpr (by decide),
    (((C10_decode_settings initialState c10Dict).2 c10Decoded rfl).2.2.2.2).1,
    ((C10_decode_settings initialState c10Dict).2 c10Decoded rfl).1⟩

theorem foldl_append_length (ex : List String) (init : String) :
    init.length ≤ (ex.foldl (fun a b => a ++ b) init).length ∧
    ∀ s ∈ ex, s.length ≤ (ex.foldl (fun a b => a ++ b) init).length := by
  induction ex generalizing init with
  | nil => exact ⟨le_refl _, by simp⟩
  | cons a tl ih =>
    obtain ⟨h1, h2⟩ := ih (init ++ a)
    rw [String.length_append] at h1
    rw [List.foldl_cons]
    refine ⟨by omega, ?_⟩
    intro s hs
    rcases List.mem_cons.mp hs with h | h
    · subst h
      omega
    · exact h2 s h

theorem freshNameGen_spec (ex : List String) (n : String) :
    freshNameGen ex n ∉ ex ∧ ∃ suffix, freshNameGen ex n = n ++ suffix := by
  constructor
  · intro hmem
    have h1 := (foldl_append_length ex "").2 _ hmem
    rw [freshNameGen, String.length_append, String.length_append] at h1
    have hx : ("x" : String).length = 1 := rfl
    omega
  · exact ⟨_, rfl⟩

/-- Claim C7 counterexample: with the filtered output dataset holding fields
"coordinates" (the data coordinates) and "pressure", and the host material
coordinates field named "pressure", the host name collides with an existing
output field name, yet the material coordinates name is kept unchanged with
no warning, because the code only compares against the data (and marker)
coordinates field names. -/
theorem C7_counterexample :
    chooseOutputMaterialFieldName (fun _ n2 => n2) ["coordinates", "pressure"]
        (outputCoordinatesFieldNames "coordinates" none) "pressure" =
      ("pressure", false) ∧
    "pressure" ∈ ["coordinates", "pressure"] := by
  refine ⟨?_, by decide⟩
  decide

/-- Claim C7 (amended): only a collision of the host material coordinates
field name with the data coordinates field name (or the distinct marker
coordinates field name) triggers the rename: then the name written is a
fresh name extending "material " + host name and the warning is printed;
otherwise the host name is used unchanged with no warning.  Either way the
choice is total: a collision is never a hard failure. -/
theorem C7_material_name_collision (uniq : List String → String → String)
    (huniq : ∀ ex n2, uniq ex n2 ∉ ex ∧ ∃ suffix, uniq ex n2 = n2 ++ suffix)
    (outputFieldNames : List String) (dataName : String)
    (markerName : Option String) (materialName : String) :
    (materialName ∈ outputCoordinatesFieldNames dataName markerName →
      (chooseOutputMaterialFieldName uniq outputFieldNames
          (outputCoordinatesFieldNames dataName markerName) materialName).2 = true ∧
      (chooseOutputMaterialFieldName uniq outputFieldNames
          (outputCoordinatesFieldNames dataName markerName) materialName).1 ∉
        outputFieldNames ∧
      ∃ suffix, (chooseOutputMaterialFieldName uniq outputFieldNames
          (outputCoordinatesFieldNames dataName markerName) materialName).1 =
        "material " ++ materialName ++ suffix) ∧
    (materialName ∉ outputCoordinatesFieldNames dataName markerName →
      chooseOutputMaterialFieldName uniq outputFieldNames
          (outputCoordinatesFieldNames dataName markerName) materialName =
        (materialName, false)) := by
  constructor
  · intro hmem
    have hc : (outputCoordinatesFieldNames dataName markerName).contains
        materialName = true := by
      simpa using hmem
    unfold chooseOutputMaterialFieldName
    rw [if_pos hc]
    obtain ⟨h1, suffix, h2⟩ := huniq outputFieldNames ("material " ++ materialName)
    refine ⟨rfl, h1, suffix, ?_⟩
    rw [h2, String.append_assoc]
  · intro hmem
    have hc : ¬ (outputCoordinatesFieldNames dataName markerName).contains
        materialName = true := by
      simpa using hmem
    unfold chooseOutputMaterialFieldName
    rw [if_neg hc]

/-- Claim C7 (amended) witness: a concrete collision of the material name
with the data coordinates name "coordinates", and a concrete non-collision. -/
theorem C7_material_name_collision_witness :
    ((chooseOutputMaterialFieldName freshNameGen ["coordinates"]
        (outputCoordinatesFieldNames "coordinates" none) "coordinates").2 = true ∧
      (chooseOutputMaterialFieldName freshNameGen ["coordinates"]
        (outputCoordinatesFieldNames "coordinates" none) "coordinates").1 ∉
        ["coordinates"] ∧
      ∃ suffix, (chooseOutputMaterialFieldName freshNameGen ["coordinates"]
        (outputCoordinatesFieldNames "coordinates" none) "coordinates").1 =
        "material " ++ "coordinates" ++ suffix) ∧
    chooseOutputMaterialFieldName freshNameGen ["coordinates"]
        (outputCoordinatesFieldNames "coordinates" none) "body coordinates" =
      ("body coordinates", false) :=
  ⟨(C7_material_name_collision freshNameGen freshNameGen_spec ["coordinates"]
      "coordinates" none "coordinates").1 (by decide),
    (C7_material_name_collision freshNameGen freshNameGen_spec ["coordinates"]
      "coordinates" none "body coordinates").2 (by decide)⟩

theorem findNearest_go (locs : List Nat) (fitted : Nat → Pt) (q : Pt) (b0 : Nat) :
    ∃ b, locs.foldl
        (fun best l =>
          match best with
          | none => some l
          | some b2 =>
            if sqDist (fitted l) q < sqDist (fitted b2) q then some l else best)
        (some b0) = some b ∧
      (b = b0 ∨ b ∈ locs) ∧
      sqDist (fitted b) q ≤ sqDist (fitted b0) q ∧
      ∀ l ∈ locs, sqDist (fitted b) q ≤ sqDist (fitted l) q := by
  induction locs generalizing b0 with
  | nil => exact ⟨b0, rfl, Or.inl rfl, le_refl _, by simp⟩
  | cons l1 tl ih =>
    rw [List.foldl_cons]
    by_cases hlt : sqDist (fitted l1) q < sqDist (fitted b0) q
    · simp only [if_pos hlt]
      obtain ⟨b, hfold, hmem, hle, hall⟩ := ih l1
      refine ⟨b, hfold, ?_, le_trans hle (le_of_lt hlt), ?_⟩
      · rcases hmem with h | h
        · exact Or.inr (h ▸ List.mem_cons_self l1 tl)
        · exact Or.inr (List.mem_cons_of_mem l1 h)
      · intro l2 hl2
        rcases List.mem_cons.mp hl2 with h | h
        · exact h ▸ hle
        · exact hall l2 h
    · simp only [if_neg hlt]
      obtain ⟨b, hfold, hmem, hle, hall⟩ := ih b0
      refine ⟨b, hfold, ?_, hle, ?_⟩
      · rcases hmem with h | h
        · exact Or.inl h
        · exact Or.inr (List.mem_cons_of_mem l1 h)
      · intro l2 hl2
        rcases List.mem_cons.mp hl2 with h | h
        · subst h
          exact le_trans hle (le_of_not_lt hlt)
        · exact hall l2 h

theorem findNearest_spec (locs : List Nat) (fitted : Nat → Pt) (q : Pt)
    (hne : locs ≠ []) :
    ∃ b, findNearest locs fitted q = some b ∧ b ∈ locs ∧
      ∀ l ∈ locs, sqDist (fitted b) q ≤ sqDist (fitted l) q := by
  cases locs with
  | nil => exact absurd rfl hne
  | cons l1 tl =>
    unfold findNearest
    rw [List.foldl_cons]
    obtain ⟨b, hfold, hmem, hle, hall⟩ := findNearest_go tl fitted q l1
    refine ⟨b, hfold, ?_, ?_⟩
    · rcases hmem with h | h
      · exact h ▸ List.mem_cons_self l1 tl
      · exact List.mem_cons_of_mem l1 h
    · intro l2 hl2
      rcases List.mem_cons.mp hl2 with h | h
      · exact h ▸ hle
      · exact hall l2 h

/-- Claim C3: the embedding map resolves a fitted-space point by evaluating
the material field at an exact interior search-mesh location when the host
mesh dimension is 3 and one exists, at the nearest location of the boundary
search mesh when the host mesh dimension is 3 and none exists, and at the
nearest location of the search mesh when the host mesh dimension is below
3. -/
theorem C3_embedding_map (m : EmbedMapModel) (q : Pt) :
    (m.hostMeshDimension = 3 →
      ((∃ l ∈ m.interiorLocs, m.fitted l = q) →
        ∃ l ∈ m.interiorLocs, m.fitted l = q ∧
          hostFindMaterialCoordinates m q = some (m.material l)) ∧
      ((∀ l ∈ m.interiorLocs, m.fitted l ≠ q) → m.boundaryLocs ≠ [] →
        ∃ b ∈ m.boundaryLocs,
          (∀ l ∈ m.boundaryLocs, sqDist (m.fitted b) q ≤ sqDist (m.fitted l) q) ∧
          hostFindMaterialCoordinates m q = some (m.material b))) ∧
    (m.hostMeshDimension < 3 → m.interiorLocs ≠ [] →
      ∃ b ∈ m.interiorLocs,
        (∀ l ∈ m.interiorLocs, sqDist (m.fitted b) q ≤ sqDist (m.fitted l) q) ∧
        hostFindMaterialCoordinates m q = some (m.material b)) := by
  constructor
  · intro h3
    constructor
    · intro hex
      have hfind : ∃ l, findExact m.interiorLocs m.fitted q = some l := by
        obtain ⟨l, hl, hv⟩ := hex
        rcases hfe : findExact m.interiorLocs m.fitted q with _ | l2
        · unfold findExact at hfe
          have h2 := List.find?_eq_none.mp hfe l hl
          rw [hv] at h2
          simp at h2
        · exact ⟨l2, rfl⟩
      obtain ⟨l, hl⟩ := hfind
      have hl2 : List.find? (fun l2 => m.fitted l2 == q) m.interiorLocs = some l := hl
      have hmem := List.mem_of_find?_eq_some hl2
      have hval := List.find?_some hl2
      refine ⟨l, hmem, eq_of_beq hval, ?_⟩
      unfold hostFindMaterialCoordinates
      rw [if_pos h3, hl]
    · intro hnone hbne
      have hfe : findExact m.interiorLocs m.fitted q = none := by
        rw [findExact, List.find?_eq_none]
        intro l hl
        simpa using hnone l hl
      obtain ⟨b, hfold, hmem, hall⟩ := findNearest_spec m.boundaryLocs m.fitted q hbne
      refine ⟨b, hmem, hall, ?_⟩
      unfold hostFindMaterialCoordinates
      rw [if_pos h3, hfe, hfold]
      rfl
  · intro hlt hne
    obtain ⟨b, hfold, hmem, hall⟩ := findNearest_spec m.interiorLocs m.fitted q hne
    refine ⟨b, hmem, hall, ?_⟩
    unfold hostFindMaterialCoordinates
    rw [if_neg (by omega), hfold]
    rfl

theorem key_mem_keys_of_mem {l : List (String × α)} {n : String} {v : α}
    (h : (n, v) ∈ l) : n ∈ dictKeys l := by
  induction l with
  | nil => cases h
  | cons hd tl ih =>
    rcases List.mem_cons.mp h with h1 | h1
    · rw [← h1]
      simp [dictKeys]
    · obtain ⟨k1, v1⟩ := hd
      simp only [dictKeys_cons, List.mem_cons]
      exact Or.inr (ih h1)

theorem dictGet_eq_some_iff_mem (l : List (String × α)) (n : String) (v : α)
    (hnodup : (dictKeys l).Nodup) : dictGet l n = some v ↔ (n, v) ∈ l := by
  induction l with
  | nil => simp [dictGet]
  | cons hd tl ih =>
    obtain ⟨k1, v1⟩ := hd
    simp only [dictKeys_cons, List.nodup_cons] at hnodup
    by_cases h1 : k1 = n
    · subst h1
      rw [dictGet, if_pos rfl]
      constructor
      · intro h2
        cases h2
        exact List.mem_cons_self _ _
      · intro h2
        rcases List.mem_cons.mp h2 with h3 | h3
        · cases h3
          rfl
        · exact absurd (key_mem_keys_of_mem h3) hnodup.1
    · rw [dictGet, if_neg h1, ih hnodup.2]
      constructor
      · exact fun h2 => List.mem_cons_of_mem _ h2
      · intro h2
        rcases List.mem_cons.mp h2 with h3 | h3
        · cases h3
          exact absurd rfl h1
        · exact h3

theorem findGroup_some (out : OutputRegionData) (n : String) (g : OutGroup)
    (h : findGroup out n = some g) : g ∈ out.groups ∧ g.name = n := by
  have h2 : List.find? (fun g2 => g2.name == n) out.groups = some g := h
  have h3 := List.find?_some h2
  exact ⟨List.mem_of_find?_eq_some h2, eq_of_beq h3⟩

theorem findGroup_isSome_of_mem (out : OutputRegionData) (g : OutGroup)
    (hg : g ∈ out.groups) : (findGroup out g.name).isSome := by
  rw [findGroup, List.find?_isSome]
  exact ⟨g, hg, by simp⟩

theorem mem_entryEmbedElems (out : OutputRegionData) (d : Nat)
    (e : String × GroupRec) (x : Nat) :
    x ∈ entryEmbedElems out d e ↔
      e.2.embed = true ∧ ∃ g, findGroup out e.1 = some g ∧
        1 ≤ d ∧ d ≤ e.2.dimension ∧ x ∈ g.elems d := by
  unfold entryEmbedElems
  by_cases hembed : e.2.embed = true
  · rw [if_pos hembed]
    split
    · rename_i g hfg
      by_cases hd : 1 ≤ d ∧ d ≤ e.2.dimension
      · rw [if_pos hd]
        simp [hembed, hfg, hd.1, hd.2]
      · rw [if_neg hd]
        constructor
        · intro hx
          exact absurd hx (List.not_mem_nil x)
        · rintro ⟨_, g2, hg2, hd1, hd2, _⟩
          rw [hfg] at hg2
          cases hg2
          exact absurd ⟨hd1, hd2⟩ hd
    · rename_i hfg
      simp [hfg]
  · rw [if_neg hembed]
    simp [hembed]

theorem mem_entryEmbedNodes (out : OutputRegionData) (e : String × GroupRec) (x : Nat) :
    x ∈ entryEmbedNodes out e ↔
      e.2.embed = true ∧ ∃ g, findGroup out e.1 = some g ∧ x ∈ g.nodes := by
  unfold entryEmbedNodes
  by_cases hembed : e.2.embed = true
  · rw [if_pos hembed]
    split
    · rename_i g hfg
      simp [hembed, hfg]
    · rename_i hfg
      simp [hfg]
  · rw [if_neg hembed]
    simp [hembed]

theorem mem_entryEmbedDatapoints (out : OutputRegionData)
    (dmn : Option String) (hnf : Bool) (e : String × GroupRec) (x : Nat) :
    x ∈ entryEmbedDatapoints out dmn hnf e ↔
      e.2.embed = true ∧
      ((∃ g, findGroup out e.1 = some g ∧ x ∈ g.datapoints) ∨
        (findGroup out e.1 = none ∧ e.1 ∉ out.otherFieldNames ∧
          ∃ mg, outputDataMarkerGroup out dmn = some mg ∧
          hnf = true ∧ x ∈ mg.datapoints ∧ out.markerNameValueAt x = some e.1)) := by
  unfold entryEmbedDatapoints
  by_cases hembed : e.2.embed = true
  · rw [if_pos hembed]
    split
    · rename_i g hfg
      simp [hembed, hfg]
    · rename_i hfg
      split
      · rename_i mg hmg
        by_cases hnfv : hnf = true
        · rw [if_pos hnfv]
          by_cases hother : e.1 ∈ out.otherFieldNames
          · rw [if_pos hother]
            constructor
            · intro hx
              exact absurd hx (List.not_mem_nil x)
            · rintro ⟨_, (⟨g, hg, _⟩ | ⟨_, hother2, _, _, _, _, _⟩)⟩
              · rw [hfg] at hg
                cases hg
              · exact absurd hother hother2
          · rw [if_neg hother, List.mem_filter]
            constructor
            · intro h12
              exact ⟨hembed,
                Or.inr ⟨hfg, hother, mg, hmg, hnfv, h12.1, eq_of_beq h12.2⟩⟩
            · rintro ⟨_, (⟨g, hg, _⟩ | ⟨_, _, mg2, hmg2, _, h1, h2⟩)⟩
              · rw [hfg] at hg
                cases hg
              · rw [hmg] at hmg2
                cases hmg2
                refine ⟨h1, ?_⟩
                rw [h2]
                exact beq_self_eq_true _
        · rw [if_neg hnfv]
          constructor
          · intro hx
            exact absurd hx (List.not_mem_nil x)
          · rintro ⟨_, (⟨g, hg, _⟩ | ⟨_, _, mg2, hmg2, hnf2, _, _⟩)⟩
            · rw [hfg] at hg
              cases hg
            · exact absurd hnf2 hnfv
      · rename_i hmg
        constructor
        · intro hx
          exact absurd hx (List.not_mem_nil x)
        · rintro ⟨_, (⟨g, hg, _⟩ | ⟨_, _, mg2, hmg2, _, _, _⟩)⟩
          · rw [hfg] at hg
            cases hg
          · rw [hmg] at hmg2
            cases hmg2
  · rw [if_neg hembed]
    simp [hembed]

theorem mem_createdMarkerGroups (out : OutputRegionData) (gd : List (String × GroupRec))
    (dmn : Option String) (hnf : Bool) (g2 : OutGroup)
    (h : g2 ∈ createdMarkerGroups out gd dmn hnf) :
    ∃ e ∈ gd, g2.name = e.1 ∧ (findGroup out e.1).isNone := by
  rw [createdMarkerGroups, List.mem_filterMap] at h
  obtain ⟨e, he, hmap⟩ := h
  by_cases hc : e.2.embed = true ∧ (findGroup out e.1).isNone
  · rw [if_pos hc] at hmap
    rcases hmg : outputDataMarkerGroup out dmn with _ | mg
    · rw [hmg] at hmap
      exact Option.noConfusion hmap
    · rw [hmg] at hmap
      have hmap2 : (if hnf = true then
          if e.1 ∈ out.otherFieldNames then none
          else
            some { name := e.1, elems1 := [], elems2 := [], elems3 := [], nodes := []
                   datapoints :=
                     mg.datapoints.filter fun p => out.markerNameValueAt p == some e.1 }
        else none) = some g2 := hmap
      by_cases hnfv : hnf = true
      · rw [if_pos hnfv] at hmap2
        by_cases hother : e.1 ∈ out.otherFieldNames
        · rw [if_pos hother] at hmap2
          exact Option.noConfusion hmap2
        · rw [if_neg hother] at hmap2
          have hg2 := Option.some.inj hmap2
          exact ⟨e, he, by rw [← hg2], hc.2⟩
      · rw [if_neg hnfv] at hmap2
        exact Option.noConfusion hmap2
  · rw [if_neg hc] at hmap
    exact Option.noConfusion hmap

/-- Claim C2 (amended): after output generation, every element, node and
datapoint of an embed-flagged group is present in the output region and
carries a defined material-coordinates value (the embedding map applied to
its data coordinates); the points of an embed-flagged marker pseudo-group
are likewise retained, but only when the pseudo-group's name is not
already used by a non-group field of the output — otherwise the group
creation's setName fails, the pseudo-group is skipped with a diagnostic,
and its points are destroyed (generateOutput lines 781-784); every element
and point belonging only to records with embed false is destroyed; every
non-embedded group other than the data marker group is removed from the
output, and the data marker group itself survives as a group. -/
theorem C2_retention (uniq : List String → String → String) (embedMap : Pt → Pt)
    (out : OutputRegionData) (gd : List (String × GroupRec))
    (dmn : Option String) (hnf : Bool) (outputFieldNames : List String)
    (dcn : String) (dmcn : Option String) (mcn : String) (res : GeneratedOutput)
    (hres : res = assembleOutput uniq embedMap out gd dmn hnf outputFieldNames
      dcn dmcn mcn)
    (hgdnodup : (dictKeys gd).Nodup)
    (hsubElems : ∀ g ∈ out.groups, ∀ d, ∀ x ∈ OutGroup.elems g d, x ∈ out.mesh d)
    (hsubNodes : ∀ g ∈ out.groups, ∀ x ∈ g.nodes, x ∈ out.nodes)
    (hsubData : ∀ g ∈ out.groups, ∀ x ∈ g.datapoints, x ∈ out.datapoints)
    (hdim : ∀ n r g, dictGet gd n = some r → findGroup out n = some g →
      ∀ d, ∀ x, x ∈ OutGroup.elems g d → 1 ≤ d ∧ d ≤ r.dimension) :
    (∀ n r g, dictGet gd n = some r → r.embed = true → findGroup out n = some g →
      (∀ d, ∀ x ∈ OutGroup.elems g d, x ∈ res.mesh d) ∧
      (∀ x ∈ g.nodes, x ∈ res.nodes ∧
        res.materialValueAt x = some (embedMap (out.dataCoordsAt x))) ∧
      (∀ x ∈ g.datapoints, x ∈ res.datapoints ∧
        res.materialValueAt x = some (embedMap (out.dataCoordsAt x)))) ∧
    (∀ n r mg, dictGet gd n = some r → r.embed = true → findGroup out n = none →
      n ∉ out.otherFieldNames →
      outputDataMarkerGroup out dmn = some mg → hnf = true →
      ∀ x ∈ mg.datapoints, out.markerNameValueAt x = some n →
        x ∈ res.datapoints ∧
        res.materialValueAt x = some (embedMap (out.dataCoordsAt x))) ∧
    (∀ d, ∀ x : Nat, (∀ n r g, dictGet gd n = some r → r.embed = true →
        findGroup out n = some g → x ∉ OutGroup.elems g d) → x ∉ res.mesh d) ∧
    (∀ x : Nat, (∀ n r g, dictGet gd n = some r → r.embed = true →
        findGroup out n = some g → x ∉ g.nodes) → x ∉ res.nodes) ∧
    (∀ x : Nat, (∀ n r, dictGet gd n = some r → r.embed = true →
        (∀ g, findGroup out n = some g → x ∉ g.datapoints) ∧
        (findGroup out n = none → out.markerNameValueAt x ≠ some n)) →
      x ∉ res.datapoints) ∧
    (∀ g ∈ out.groups, ∀ r, dictGet gd g.name = some r → r.embed = false →
      dmn ≠ some g.name → g.name ∉ res.groups.map OutGroup.name) ∧
    (∀ g ∈ out.groups, dmn = some g.name →
      g.name ∈ res.groups.map OutGroup.name) := by
  have hmesh : ∀ d, res.mesh d =
      (out.mesh d).filter fun x =>
        decide (x ∈ gd.flatMap (entryEmbedElems out d)) := by
    intro d
    rw [hres]
    match d with
    | 0 => rfl
    | 1 => rfl
    | 2 => rfl
    | 3 => rfl
    | _ + 4 => rfl
  have hnodes : res.nodes =
      out.nodes.filter fun x => decide (x ∈ gd.flatMap (entryEmbedNodes out)) := by
    rw [hres]
    rfl
  have hdata : res.datapoints =
      out.datapoints.filter fun x =>
        decide (x ∈ gd.flatMap (entryEmbedDatapoints out dmn hnf)) := by
    rw [hres]
    rfl
  have hmat : ∀ x, res.materialValueAt x =
      if x ∈ res.nodes ∨ x ∈ res.datapoints
      then some (embedMap (out.dataCoordsAt x)) else none := by
    intro x
    rw [hres]
    rfl
  have hgroups : res.groups =
      ((out.groups.filter fun g =>
          match dictGet gd g.name with
          | some r => r.embed || decide (dmn = some g.name)
          | none => true).map fun g =>
        { g with
            elems1 := g.elems1.filter fun x =>
              decide (x ∈ gd.flatMap (entryEmbedElems out 1))
            elems2 := g.elems2.filter fun x =>
              decide (x ∈ gd.flatMap (entryEmbedElems out 2))
            elems3 := g.elems3.filter fun x =>
              decide (x ∈ gd.flatMap (entryEmbedElems out 3))
            nodes := g.nodes.filter fun x =>
              decide (x ∈ gd.flatMap (entryEmbedNodes out))
            datapoints := g.datapoints.filter fun x =>
              decide (x ∈ gd.flatMap (entryEmbedDatapoints out dmn hnf)) }) ++
      createdMarkerGroups out gd dmn hnf := by
    rw [hres]
    rfl
  refine ⟨?_, ?_, ?_, ?_, ?_, ?_, ?_⟩
  · intro n r g hget hembed hfg
    have hentry : (n, r) ∈ gd := (dictGet_eq_some_iff_mem gd n r hgdnodup).mp hget
    have hgmem := (findGroup_some out n g hfg).1
    refine ⟨?_, ?_, ?_⟩
    · intro d x hx
      rw [hmesh d, List.mem_filter, decide_eq_true_eq, List.mem_flatMap]
      exact ⟨hsubElems g hgmem d x hx, (n, r), hentry,
        (mem_entryEmbedElems out d (n, r) x).mpr
          ⟨hembed, g, hfg, (hdim n r g hget hfg d x hx).1,
            (hdim n r g hget hfg d x hx).2, hx⟩⟩
    · intro x hx
      have hxn : x ∈ res.nodes := by
        rw [hnodes, List.mem_filter, decide_eq_true_eq, List.mem_flatMap]
        exact ⟨hsubNodes g hgmem x hx, (n, r), hentry,
          (mem_entryEmbedNodes out (n, r) x).mpr ⟨hembed, g, hfg, hx⟩⟩
      refine ⟨hxn, ?_⟩
      rw [hmat x, if_pos (Or.inl hxn)]
    · intro x hx
      have hxd : x ∈ res.datapoints := by
        rw [hdata, List.mem_filter, decide_eq_true_eq, List.mem_flatMap]
        exact ⟨hsubData g hgmem x hx, (n, r), hentry,
          (mem_entryEmbedDatapoints out dmn hnf (n, r) x).mpr
            ⟨hembed, Or.inl ⟨g, hfg, hx⟩⟩⟩
      refine ⟨hxd, ?_⟩
      rw [hmat x, if_pos (Or.inr hxd)]
  · intro n r mg hget hembed hfg hother hmg hnfv x hx hname
    have hentry : (n, r) ∈ gd := (dictGet_eq_some_iff_mem gd n r hgdnodup).mp hget
    have hmgmem : mg ∈ out.groups := by
      rcases hdm : dmn with _ | m
      · rw [hdm] at hmg
        exact Option.noConfusion hmg
      · rw [hdm] at hmg
        exact (findGroup_some out m mg hmg).1
    have hxd : x ∈ res.datapoints := by
      rw [hdata, List.mem_filter, decide_eq_true_eq, List.mem_flatMap]
      exact ⟨hsubData mg hmgmem x hx, (n, r), hentry,
        (mem_entryEmbedDatapoints out dmn hnf (n, r) x).mpr
          ⟨hembed, Or.inr ⟨hfg, hother, mg, hmg, hnfv, hx, hname⟩⟩⟩
    refine ⟨hxd, ?_⟩
    rw [hmat x, if_pos (Or.inr hxd)]
  · intro d x hnone hmem
    rw [hmesh d, List.mem_filter, decide_eq_true_eq, List.mem_flatMap] at hmem
    obtain ⟨_, e, he, hxe⟩ := hmem
    obtain ⟨hembed, g, hfg, _, _, hxg⟩ := (mem_entryEmbedElems out d e x).mp hxe
    have hget : dictGet gd e.1 = some e.2 :=
      (dictGet_eq_some_iff_mem gd e.1 e.2 hgdnodup).mpr he
    exact hnone e.1 e.2 g hget hembed hfg hxg
  · intro x hnone hmem
    rw [hnodes, List.mem_filter, decide_eq_true_eq, List.mem_flatMap] at hmem
    obtain ⟨_, e, he, hxe⟩ := hmem
    obtain ⟨hembed, g, hfg, hxg⟩ := (mem_entryEmbedNodes out e x).mp hxe
    have hget : dictGet gd e.1 = some e.2 :=
      (dictGet_eq_some_iff_mem gd e.1 e.2 hgdnodup).mpr he
    exact hnone e.1 e.2 g hget hembed hfg hxg
  · intro x hnone hmem
    rw [hdata, List.mem_filter, decide_eq_true_eq, List.mem_flatMap] at hmem
    obtain ⟨_, e, he, hxe⟩ := hmem
    obtain ⟨hembed, hcase⟩ := (mem_entryEmbedDatapoints out dmn hnf e x).mp hxe
    have hget : dictGet gd e.1 = some e.2 :=
      (dictGet_eq_some_iff_mem gd e.1 e.2 hgdnodup).mpr he
    rcases hcase with ⟨g, hfg, hxg⟩ | ⟨hfg, _, mg, hmg, hnfv, hxmg, hname⟩
    · exact (hnone e.1 e.2 hget hembed).1 g hfg hxg
    · exact (hnone e.1 e.2 hget hembed).2 hfg hname
  · intro g hg r hget hembed hne hmem
    rw [hgroups, List.map_append, List.mem_append] at hmem
    rcases hmem with hmem | hmem
    · rw [List.map_map] at hmem
      obtain ⟨g2, hg2, hname2⟩ := List.mem_map.mp hmem
      rw [List.mem_filter] at hg2
      obtain ⟨hg2mem, hk⟩ := hg2
      have hname4 : g2.name = g.name := hname2
      rw [hname4, hget] at hk
      have hk2 : (r.embed || decide (dmn = some g.name)) = true := hk
      rw [hembed] at hk2
      simp only [Bool.false_or, decide_eq_true_eq] at hk2
      exact hne hk2
    · obtain ⟨g2, hg2, hname2⟩ := List.mem_map.mp hmem
      obtain ⟨e, _, hname3, hnone⟩ := mem_createdMarkerGroups out gd dmn hnf g2 hg2
      have heq : e.1 = g.name := hname3 ▸ hname2
      have hsome := findGroup_isSome_of_mem out g hg
      rw [← heq] at hsome
      rw [Option.isNone_iff_eq_none] at hnone
      rw [hnone] at hsome
      exact Bool.noConfusion hsome
  · intro g hg hdmn
    rw [hgroups, List.map_append, List.mem_append]
    left
    rw [List.map_map]
    refine List.mem_map.mpr ⟨g, ?_, rfl⟩
    rw [List.mem_filter]
    refine ⟨hg, ?_⟩
    cases hget : dictGet gd g.name with
    | some r =>
      have hk2 : decide (dmn = some g.name) = true := by
        rw [hdmn]
        exact decide_eq_true rfl
      show (r.embed || decide (dmn = some g.name)) = true
      rw [hk2, Bool.or_true]
    | none => rfl

theorem elems_nil_of_all_nil (g : OutGroup) (h1 : g.elems1 = [])
    (h2 : g.elems2 = []) (h3 : g.elems3 = []) (d : Nat) :
    OutGroup.elems g d = [] := by
  match d with
  | 0 => rfl
  | 1 => exact h1
  | 2 => exact h2
  | 3 => exact h3
  | _ + 4 => rfl

theorem dictGet_cons_cases {l : List (String × α)} {k n : String} {v w : α}
    (h : dictGet ((k, v) :: l) n = some w) :
    (k = n ∧ v = w) ∨ (¬ k = n ∧ dictGet l n = some w) := by
  by_cases h1 : k = n
  · rw [dictGet, if_pos h1] at h
    exact Or.inl ⟨h1, Option.some.inj h⟩
  · rw [dictGet, if_neg h1] at h
    exact Or.inr ⟨h1, h⟩

theorem c2SubElems : ∀ g ∈ c2Out.groups, ∀ d, ∀ x ∈ OutGroup.elems g d,
    x ∈ c2Out.mesh d := by
  intro g hg d x hx
  rcases List.mem_cons.mp hg with h | h
  · subst h
    match d with
    | 3 => exact hx
    | 0 => exact absurd hx (List.not_mem_nil x)
    | 1 => exact absurd hx (List.not_mem_nil x)
    | 2 => exact absurd hx (List.not_mem_nil x)
    | _ + 4 => exact absurd hx (List.not_mem_nil x)
  rcases List.mem_cons.mp h with h2 | h2
  · subst h2
    match d with
    | 2 => exact hx
    | 0 => exact absurd hx (List.not_mem_nil x)
    | 1 => exact absurd hx (List.not_mem_nil x)
    | 3 => exact absurd hx (List.not_mem_nil x)
    | _ + 4 => exact absurd hx (List.not_mem_nil x)
  rcases List.mem_cons.mp h2 with h3 | h3
  · subst h3
    rw [elems_nil_of_all_nil c2MarkerOutGroup rfl rfl rfl d] at hx
    exact absurd hx (List.not_mem_nil x)
  · exact absurd h3 (List.not_mem_nil g)

theorem c2SubNodes : ∀ g ∈ c2Out.groups, ∀ x ∈ g.nodes, x ∈ c2Out.nodes := by
  intro g hg x hx
  rcases List.mem_cons.mp hg with h | h
  · subst h
    exact hx
  rcases List.mem_cons.mp h with h2 | h2
  · subst h2
    exact absurd hx (List.not_mem_nil x)
  rcases List.mem_cons.mp h2 with h3 | h3
  · subst h3
    exact absurd hx (List.not_mem_nil x)
  · exact absurd h3 (List.not_mem_nil g)

theorem c2SubData : ∀ g ∈ c2Out.groups, ∀ x ∈ g.datapoints,
    x ∈ c2Out.datapoints := by
  intro g hg x hx
  rcases List.mem_cons.mp hg with h | h
  · subst h
    exact absurd hx (List.not_mem_nil x)
  rcases List.mem_cons.mp h with h2 | h2
  · subst h2
    exact absurd hx (List.not_mem_nil x)
  rcases List.mem_cons.mp h2 with h3 | h3
  · subst h3
    exact hx
  · exact absurd h3 (List.not_mem_nil g)

theorem c2Dim : ∀ n r g, dictGet c2gd n = some r → findGroup c2Out n = some g →
    ∀ d, ∀ x, x ∈ OutGroup.elems g d → 1 ≤ d ∧ d ≤ r.dimension := by
  intro n r g hget hfg
  rcases dictGet_cons_cases hget with ⟨hn, hr⟩ | ⟨h1, hget⟩
  · subst hn
    subst hr
    have hg := Option.some.inj hfg
    subst hg
    intro d x hx
    match d with
    | 3 => exact ⟨by decide, by decide⟩
    | 0 => exact absurd hx (List.not_mem_nil x)
    | 1 => exact absurd hx (List.not_mem_nil x)
    | 2 => exact absurd hx (List.not_mem_nil x)
    | _ + 4 => exact absurd hx (List.not_mem_nil x)
  rcases dictGet_cons_cases hget with ⟨hn, hr⟩ | ⟨h2, hget⟩
  · subst hn
    subst hr
    have hg := Option.some.inj hfg
    subst hg
    intro d x hx
    match d with
    | 2 => exact ⟨by decide, by decide⟩
    | 0 => exact absurd hx (List.not_mem_nil x)
    | 1 => exact absurd hx (List.not_mem_nil x)
    | 3 => exact absurd hx (List.not_mem_nil x)
    | _ + 4 => exact absurd hx (List.not_mem_nil x)
  rcases dictGet_cons_cases hget with ⟨hn, hr⟩ | ⟨h3, hget⟩
  · subst hn
    subst hr
    have hg := Option.some.inj hfg
    subst hg
    intro d x hx
    rw [elems_nil_of_all_nil c2MarkerOutGroup rfl rfl rfl d] at hx
    exact absurd hx (List.not_mem_nil x)
  rcases dictGet_cons_cases hget with ⟨hn, hr⟩ | ⟨h4, hget⟩
  · subst hn
    exact absurd hfg (by intro h; exact Option.noConfusion h)
  rcases dictGet_cons_cases hget with ⟨hn, hr⟩ | ⟨h5, hget⟩
  · subst hn
    exact absurd hfg (by intro h; exact Option.noConfusion h)
  · exact absurd hget (by intro h; exact Option.noConfusion h)

theorem c2NoElem2 : ∀ n r g, dictGet c2gd n = some r → r.embed = true →
    findGroup c2Out n = some g → 5 ∉ OutGroup.elems g 2 := by
  intro n r g hget hembed hfg
  rcases dictGet_cons_cases hget with ⟨hn, hr⟩ | ⟨h1, hget⟩
  · subst hn
    have hg := Option.some.inj hfg
    subst hg
    exact List.not_mem_nil 5
  rcases dictGet_cons_cases hget with ⟨hn, hr⟩ | ⟨h2, hget⟩
  · subst hr
    exact absurd hembed (by decide)
  rcases dictGet_cons_cases hget with ⟨hn, hr⟩ | ⟨h3, hget⟩
  · subst hr
    exact absurd hembed (by decide)
  rcases dictGet_cons_cases hget with ⟨hn, hr⟩ | ⟨h4, hget⟩
  · subst hn
    exact absurd hfg (by intro h; exact Option.noConfusion h)
  rcases dictGet_cons_cases hget with ⟨hn, hr⟩ | ⟨h5, hget⟩
  · subst hr
    exact absurd hembed (by decide)
  · exact absurd hget (by intro h; exact Option.noConfusion h)

theorem c2NoData11 : ∀ n r, dictGet c2gd n = some r → r.embed = true →
    (∀ g, findGroup c2Out n = some g → 11 ∉ g.datapoints) ∧
    (findGroup c2Out n = none → c2Out.markerNameValueAt 11 ≠ some n) := by
  intro n r hget hembed
  rcases dictGet_cons_cases hget with ⟨hn, hr⟩ | ⟨h1, hget⟩
  · subst hn
    constructor
    · intro g hfg
      have hg := Option.some.inj hfg
      subst hg
      exact List.not_mem_nil 11
    · intro hfg
      exact absurd hfg (by intro h; exact Option.noConfusion h)
  rcases dictGet_cons_cases hget with ⟨hn, hr⟩ | ⟨h2, hget⟩
  · subst hr
    exact absurd hembed (by decide)
  rcases dictGet_cons_cases hget with ⟨hn, hr⟩ | ⟨h3, hget⟩
  · subst hr
    exact absurd hembed (by decide)
  rcases dictGet_cons_cases hget with ⟨hn, hr⟩ | ⟨h4, hget⟩
  · subst hn
    constructor
    · intro g hfg
      exact absurd hfg (by intro h; exact Option.noConfusion h)
    · intro _ hname
      have h2 : (some "base" : Option String) = some "apex" := hname
      exact absurd (Option.some.inj h2) (by decide)
  rcases dictGet_cons_cases hget with ⟨hn, hr⟩ | ⟨h5, hget⟩
  · subst hr
    exact absurd hembed (by decide)
  · exact absurd hget (by intro h; exact Option.noConfusion h)

/-- Claim C2 witness on the concrete scenario: the embedded cube node and
the embedded apex marker point are retained with defined material
coordinates, the non-embedded junk surface element and the non-embedded
base marker point are destroyed, the junk group is removed from the output,
and the marker group survives as a group. -/
theorem C2_retention_witness :
    (2 ∈ c2Res.nodes ∧
      c2Res.materialValueAt 2 = some (c2Out.dataCoordsAt 2)) ∧
    (10 ∈ c2Res.datapoints ∧
      c2Res.materialValueAt 10 = some (c2Out.dataCoordsAt 10)) ∧
    (5 ∉ c2Res.mesh 2) ∧
    (11 ∉ c2Res.datapoints) ∧
    ("junk" ∉ c2Res.groups.map OutGroup.name) ∧
    ("marker" ∈ c2Res.groups.map OutGroup.name) := by
  have H := C2_retention (fun _ n2 => n2) (fun p => p) c2Out c2gd (some "marker")
    true ["coordinates"] "coordinates" none "body coordinates" c2Res rfl
    (by decide) c2SubElems c2SubNodes c2SubData c2Dim
  refine ⟨?_, ?_, ?_, ?_, ?_, ?_⟩
  · exact (H.1 "cube" { embed := true, dimension := 3, size := 1 } c2CubeGroup
      rfl rfl rfl).2.1 2 (by decide)
  · exact (H.2.1 "apex" { embed := true, dimension := 0, size := 1 }
      c2MarkerOutGroup rfl rfl rfl (by decide) rfl rfl 10 (by decide) rfl)
  · exact H.2.2.1 2 5 c2NoElem2
  · exact H.2.2.2.2.1 11 c2NoData11
  · exact H.2.2.2.2.2.1 c2JunkGroup (by decide)
      { embed := false, dimension := 2, size := 1 } rfl rfl (by decide)
  · exact H.2.2.2.2.2.2 c2MarkerOutGroup (by decide) rfl

/-- Claim C2 counterexample: the "pressure" marker pseudo-group has its
embed flag set, it is not a literal group of the output, and the marker
datapoint 10 carries "pressure" as its marker name value — yet because the
re-read output already holds a non-group field named "pressure", the
pseudo-group's setName fails, the group is skipped, and the point is
destroyed with no material-coordinates value, contradicting the claim's
unconditional retention of embed-flagged marker pseudo-group points. -/
theorem C2_counterexample :
    dictGet c2CexGd "pressure" =
      some { embed := true, dimension := 0, size := 1 } ∧
    findGroup c2CexOut "pressure" = none ∧
    "pressure" ∈ c2CexOut.otherFieldNames ∧
    (outputDataMarkerGroup c2CexOut (some "marker")).isSome = true ∧
    c2CexOut.markerNameValueAt 10 = some "pressure" ∧
    10 ∈ c2CexOut.datapoints ∧
    10 ∉ c2CexRes.datapoints ∧
    c2CexRes.materialValueAt 10 = none := by
  decide

/-- Claim C3 witness: an exact interior hit for the query (2,2,2), the
boundary nearest fallback for the query (0,0,2), and the plain nearest
search on the 2-D model for the query (1,1). -/
theorem C3_embedding_map_witness :
    (∃ l ∈ c3Model.interiorLocs, c3Model.fitted l = [2, 2, 2] ∧
      hostFindMaterialCoordinates c3Model [2, 2, 2] = some (c3Model.material l)) ∧
    (∃ b ∈ c3Model.boundaryLocs,
      (∀ l ∈ c3Model.boundaryLocs,
        sqDist (c3Model.fitted b) [0, 0, 2] ≤ sqDist (c3Model.fitted l) [0, 0, 2]) ∧
      hostFindMaterialCoordinates c3Model [0, 0, 2] = some (c3Model.material b)) ∧
    (∃ b ∈ c3Model2.interiorLocs,
      (∀ l ∈ c3Model2.interiorLocs,
        sqDist (c3Model2.fitted b) [1, 1] ≤ sqDist (c3Model2.fitted l) [1, 1]) ∧
      hostFindMaterialCoordinates c3Model2 [1, 1] = some (c3Model2.material b)) :=
  ⟨((C3_embedding_map c3Model [2, 2, 2]).1 rfl).1 (by decide),
    ((C3_embedding_map c3Model [0, 0, 2]).1 rfl).2 (by decide) (by decide),
    (C3_embedding_map c3Model2 [1, 1]).2 (by decide) (by decide)⟩

end DataEmbedder
